/-
Verification of the SGPA/CGPA grading engine of smart-cgpa-calculator-v2.

The numeric core lives in two near-duplicate implementations:
  * frontend: src/frontend/src/lib/SGPAEngine.ts   (namespace SGPAEngine below)
  * backend:  calculation utilities bundled with src/backend/src/auth/passport-config.ts
              (namespace BackendCalc below)

JavaScript numbers are modelled as exact rationals (ℚ); `Math.round` is
`fun q => ⌊q + 1/2⌋` (round half toward +∞, which on the nonnegative values
appearing here is round half away from zero), and `Math.floor` is the
mathematical floor.  Thrown exceptions are modelled with `Option` (`none` =
throw); in-place mutation of subject records (which occurs only in
`greedyGlobalPlan`) is modelled with an explicit store of subject records.
-/
import Mathlib

/- The Batteries rational primitives are `@[irreducible]`, which blocks the
`decide` frontend from evaluating concrete rational arithmetic; re-allow
unfolding (the kernel re-checks every `decide` proof independently). -/
set_option allowUnsafeReducibility true in
attribute [semireducible] Rat.mul Rat.add Rat.sub Rat.inv Rat.ofScientific

/-- `Math.floor` on a rational, written on raw numerator/denominator so that
concrete values evaluate inside the kernel. -/
def ratFloor (q : ℚ) : ℤ := q.num / q.den

/-- `ratFloor` is the mathematical floor. -/
theorem ratFloor_eq_floor (q : ℚ) : ratFloor q = ⌊q⌋ := by
  rw [Rat.floor_def]; rfl

/-- `Math.round`: round half toward +∞. -/
def jsRound (q : ℚ) : ℤ := ratFloor (q + 1/2)

/-- `Math.round` as a floor expression. -/
theorem jsRound_def (q : ℚ) : jsRound q = ⌊q + 1/2⌋ := ratFloor_eq_floor _

/-- `Math.round` is monotone. -/
theorem jsRound_mono {a b : ℚ} (h : a ≤ b) : jsRound a ≤ jsRound b := by
  rw [jsRound_def, jsRound_def]
  exact Int.floor_le_floor (by linarith)

/-- `Math.round` of an integer is that integer. -/
theorem jsRound_intCast (z : ℤ) : jsRound (z : ℚ) = z := by
  rw [jsRound_def, Int.floor_eq_iff]
  constructor
  · linarith
  · linarith

namespace SGPAEngine

/-- `interface GradeBucket` from SGPAEngine.ts. -/
structure GradeBucket where
  min : ℚ
  gp : ℚ
  label : String := ""
deriving DecidableEq, Repr

/-- `interface Subject` from SGPAEngine.ts. -/
structure Subject where
  code : String
  name : String
  cie : ℚ
  see : ℚ
  credits : ℚ
deriving DecidableEq, Repr

/-- `interface GradingConfig` from SGPAEngine.ts. -/
structure GradingConfig where
  maxCIE : ℚ
  maxSEE : ℚ
  buckets : List GradeBucket
  roundingDigits : ℕ
deriving DecidableEq, Repr

/-- `DEFAULT_GRADING_CONFIG` from SGPAEngine.ts. -/
def DEFAULT_GRADING_CONFIG : GradingConfig :=
  { maxCIE := 50
    maxSEE := 100
    roundingDigits := 2
    buckets :=
      [ { min := 90, gp := 10, label := "O" }
      , { min := 80, gp := 9, label := "A+" }
      , { min := 70, gp := 8, label := "A" }
      , { min := 60, gp := 7, label := "B+" }
      , { min := 50, gp := 6, label := "B" }
      , { min := 40, gp := 5, label := "C" }
      , { min := 0, gp := 4, label := "F" } ] }

/-- `scaleSEE`: `see / (config.maxSEE / config.maxCIE)`. -/
def scaleSEE (see : ℚ) (config : GradingConfig) : ℚ :=
  see / (config.maxSEE / config.maxCIE)

/-- `calculateTotal`: `cie + scaleSEE(see)`. -/
def calculateTotal (cie see : ℚ) (config : GradingConfig) : ℚ :=
  cie + scaleSEE see config

/-- One step of the stable descending-by-`min` sort performed by
`[...config.buckets].sort((a, b) => b.min - a.min)`: insert `b` after every
already-placed bucket whose `min` is ≥ `b.min` (ES2019 `Array.prototype.sort`
is stable). -/
def insertDesc (b : GradeBucket) : List GradeBucket → List GradeBucket
  | [] => [b]
  | c :: cs => if c.min < b.min then b :: c :: cs else c :: insertDesc b cs

/-- `[...config.buckets].sort((a, b) => b.min - a.min)`. -/
def sortDesc (l : List GradeBucket) : List GradeBucket :=
  l.foldl (fun acc b => insertDesc b acc) []

/-- The `for (const bucket of sortedBuckets) { if (total >= bucket.min) return bucket.gp }`
loop of `gpForTotal`, with the trailing `return 0` fallback. -/
def firstGp (total : ℚ) : List GradeBucket → ℚ
  | [] => 0
  | b :: bs => if b.min ≤ total then b.gp else firstGp total bs

/-- `gpForTotal` from SGPAEngine.ts. -/
def gpForTotal (total : ℚ) (config : GradingConfig) : ℚ :=
  firstGp total (sortDesc config.buckets)

/-- `calculateWeightedPoints`: `gp * credits`. -/
def calculateWeightedPoints (gp credits : ℚ) : ℚ := gp * credits

/-- `roundTo` from SGPAEngine.ts: `Math.round(value * 10^digits) / 10^digits`. -/
def roundTo (value : ℚ) (digits : ℕ) : ℚ :=
  (jsRound (value * 10 ^ digits) : ℚ) / 10 ^ digits

/-- `interface SubjectResult` from SGPAEngine.ts. -/
structure SubjectResult where
  code : String
  name : String
  cie : ℚ
  see : ℚ
  seeScaled : ℚ
  total : ℚ
  gp : ℚ
  weighted : ℚ
  credits : ℚ
deriving DecidableEq, Repr

/-- `interface SGPAResult` from SGPAEngine.ts. -/
structure SGPAResult where
  subjects : List SubjectResult
  sgpa : ℚ
  totalCredits : ℚ
  totalWeighted : ℚ
  maxSgpaIfAll100 : ℚ
deriving DecidableEq, Repr

/-- `calculateSGPA` from SGPAEngine.ts. -/
def calculateSGPA (subjects : List Subject)
    (config : GradingConfig := DEFAULT_GRADING_CONFIG) : SGPAResult :=
  let results : List SubjectResult := subjects.map fun subject =>
    let seeScaled := scaleSEE subject.see config
    let total := subject.cie + seeScaled
    let gp := gpForTotal total config
    let weighted := calculateWeightedPoints gp subject.credits
    { code := subject.code, name := subject.name, cie := subject.cie, see := subject.see
      seeScaled := seeScaled, total := total, gp := gp, weighted := weighted
      credits := subject.credits }
  let totalCredits : ℚ := results.foldl (fun sum r => sum + r.credits) 0
  let totalWeighted : ℚ := results.foldl (fun sum r => sum + r.weighted) 0
  let sgpa : ℚ := if 0 < totalCredits then totalWeighted / totalCredits else 0
  let maxSubjects := subjects.map fun s => { s with see := config.maxSEE }
  let maxResults : List ℚ := maxSubjects.map fun subject =>
    let seeScaled := scaleSEE subject.see config
    let total := subject.cie + seeScaled
    let gp := gpForTotal total config
    calculateWeightedPoints gp subject.credits
  let maxWeighted : ℚ := maxResults.foldl (fun sum w => sum + w) 0
  let maxSgpaIfAll100 : ℚ := if 0 < totalCredits then maxWeighted / totalCredits else 0
  { subjects := results
    sgpa := roundTo sgpa config.roundingDigits
    totalCredits := totalCredits
    totalWeighted := totalWeighted
    maxSgpaIfAll100 := roundTo maxSgpaIfAll100 config.roundingDigits }

/-- `interface CriticalSEE` from SGPAEngine.ts. -/
structure CriticalSEE where
  cutoffTotal : ℚ
  seeCrit : ℚ
  gp : ℚ
  reachable : Bool
deriving DecidableEq, Repr

/-- One step of the stable ascending-by-`seeCrit` sort performed by
`criticals.sort((a, b) => a.seeCrit - b.seeCrit)`. -/
def insertAsc (c : CriticalSEE) : List CriticalSEE → List CriticalSEE
  | [] => [c]
  | d :: ds => if d.seeCrit ≤ c.seeCrit then d :: insertAsc c ds else c :: d :: ds

/-- `criticals.sort((a, b) => a.seeCrit - b.seeCrit)`. -/
def sortAsc (l : List CriticalSEE) : List CriticalSEE :=
  l.foldl (fun acc c => insertAsc c acc) []

/-- `calculateCriticalSEEValues` from SGPAEngine.ts. -/
def calculateCriticalSEEValues (cie : ℚ)
    (config : GradingConfig := DEFAULT_GRADING_CONFIG) : List CriticalSEE :=
  let criticals := config.buckets.map fun bucket =>
    let cutoffTotal := bucket.min
    let seeCrit := (cutoffTotal - cie) * (config.maxSEE / config.maxCIE)
    let reachable : Bool := decide (0 ≤ seeCrit) && decide (seeCrit ≤ config.maxSEE)
    { cutoffTotal := cutoffTotal
      seeCrit := max 0 (min config.maxSEE seeCrit)
      gp := bucket.gp
      reachable := reachable : CriticalSEE }
  sortAsc criticals

/-- `subjects.map((s, i) => i === targetIndex ? { ...s, see: v } : s)`: the
copy-on-write SEE replacement used by the planners. -/
def replaceSee : List Subject → ℕ → ℚ → List Subject
  | [], _, _ => []
  | s :: rest, 0, v => { s with see := v } :: rest
  | s :: rest, i + 1, v => s :: replaceSee rest i v

/-- `interface SubjectPlan` from SGPAEngine.ts. -/
structure SubjectPlan where
  code : String
  name : String
  currentSee : ℚ
  minSeeToReachTarget : ℚ
  achievedSgpa : ℚ
  possible : Bool
  marginalGain : ℚ
deriving DecidableEq, Repr

/-- Termination measure for the `while (left <= right)` binary-search loop of
`findMinimalSEEForTarget` (the bounds are integers after the first iteration,
but start at the subject's current SEE, an arbitrary rational). -/
def searchMeasure (left right : ℚ) : ℕ :=
  if left ≤ right then
    (⌊right⌋ - ⌈left⌉ + 1).toNat * 3 + (if (⌈left⌉ : ℚ) = left then 0 else 1)
      + (if (⌈right⌉ : ℚ) = right then 0 else 1) + 1
  else 0

theorem searchMeasure_pos {l r : ℚ} (h : l ≤ r) : 0 < searchMeasure l r := by
  rw [searchMeasure, if_pos h]; omega

theorem searchMeasure_left_lt (l r : ℚ) (h : l ≤ r) :
    searchMeasure l ((⌊(l + r) / 2⌋ : ℚ) - 1) < searchMeasure l r := by
  set m : ℤ := ⌊(l + r) / 2⌋ with hm
  have hmr : m ≤ ⌊r⌋ := Int.floor_le_floor (by linarith)
  by_cases hg : l ≤ (m : ℚ) - 1
  · have hcl : ⌈l⌉ ≤ m - 1 := by
      rw [show ((m : ℚ) - 1) = ((m - 1 : ℤ) : ℚ) by push_cast; ring] at hg
      exact Int.ceil_le.mpr hg
    have hceil : ⌈(m : ℚ) - 1⌉ = m - 1 := by
      rw [show ((m : ℚ) - 1) = ((m - 1 : ℤ) : ℚ) by push_cast; ring, Int.ceil_intCast]
    have hfloor : ⌊(m : ℚ) - 1⌋ = m - 1 := by
      rw [show ((m : ℚ) - 1) = ((m - 1 : ℤ) : ℚ) by push_cast; ring, Int.floor_intCast]
    rw [searchMeasure, if_pos hg, searchMeasure, if_pos h, hceil, hfloor,
      if_pos (show ((m - 1 : ℤ) : ℚ) = (m : ℚ) - 1 by push_cast; ring)]
    omega
  · rw [searchMeasure, if_neg hg]
    exact searchMeasure_pos h

theorem searchMeasure_right_lt (l r : ℚ) (h : l ≤ r) :
    searchMeasure ((⌊(l + r) / 2⌋ : ℚ) + 1) r < searchMeasure l r := by
  set m : ℤ := ⌊(l + r) / 2⌋ with hm
  have hlm : ⌊l⌋ ≤ m := Int.floor_le_floor (by linarith)
  by_cases hg : (m : ℚ) + 1 ≤ r
  · have hmr : m + 1 ≤ ⌊r⌋ := by
      apply Int.le_floor.mpr
      push_cast
      linarith
    have hceil : ⌈(m : ℚ) + 1⌉ = m + 1 := by
      rw [show ((m : ℚ) + 1) = ((m + 1 : ℤ) : ℚ) by push_cast; ring, Int.ceil_intCast]
    rw [searchMeasure, if_pos hg, searchMeasure, if_pos h, hceil,
      if_pos (show ((m + 1 : ℤ) : ℚ) = (m : ℚ) + 1 by push_cast; ring)]
    by_cases hint : (⌈l⌉ : ℚ) = l
    · have hlc : ⌈l⌉ ≤ m := by
        apply Int.le_floor.mpr
        rw [hint]
        linarith
      rw [if_pos hint]
      omega
    · have h1 : ⌈l⌉ ≤ ⌊l⌋ + 1 := Int.ceil_le_floor_add_one l
      rw [if_neg hint]
      omega
  · rw [searchMeasure, if_neg hg]
    exact searchMeasure_pos h

/-- The `while (left <= right)` binary-search loop of `findMinimalSEEForTarget`.
`sg mid` stands for `calculateSGPA(modifiedSubjects, config).sgpa` at probe
`mid` (see `sgpaAt`); the result pair carries `(minSee, achievedSgpa)`. -/
def searchLoop (sg : ℤ → ℚ) (targetSgpa : ℚ) (left right minSee achievedSgpa : ℚ) :
    ℚ × ℚ :=
  if h : left ≤ right then
    if targetSgpa ≤ sg ⌊(left + right) / 2⌋ then
      searchLoop sg targetSgpa left ((⌊(left + right) / 2⌋ : ℚ) - 1)
        (⌊(left + right) / 2⌋ : ℚ) (sg ⌊(left + right) / 2⌋)
    else
      searchLoop sg targetSgpa ((⌊(left + right) / 2⌋ : ℚ) + 1) right minSee achievedSgpa
  else (minSee, achievedSgpa)
termination_by searchMeasure left right
decreasing_by
  · exact searchMeasure_left_lt left right h
  · exact searchMeasure_right_lt left right h

/-- The probe evaluated by the binary search at an integer SEE value `x`:
`calculateSGPA(subjects.map((s, i) => i === targetIndex ? { ...s, see: x } : s)).sgpa`. -/
def sgpaAt (subjects : List Subject) (targetIndex : ℕ) (config : GradingConfig)
    (x : ℤ) : ℚ :=
  (calculateSGPA (replaceSee subjects targetIndex (x : ℚ)) config).sgpa

/-- Placeholder record used for (provably in-bounds) list indexing. -/
def defaultSubject : Subject := { code := "", name := "", cie := 0, see := 0, credits := 0 }

/-- `findMinimalSEEForTarget` from SGPAEngine.ts; `none` models the thrown
`Subject not found` error. -/
def findMinimalSEEForTarget (subjects : List Subject) (targetSubjectCode : String)
    (targetSgpa : ℚ) (config : GradingConfig := DEFAULT_GRADING_CONFIG) :
    Option SubjectPlan :=
  match subjects.findIdx? (fun s => s.code == targetSubjectCode) with
  | none => none
  | some targetIndex =>
    let currentSubject := subjects.getD targetIndex defaultSubject
    let currentSee := currentSubject.see
    let currentResult := calculateSGPA subjects config
    let testSubjects := replaceSee subjects targetIndex
      (min (currentSubject.see + 1) config.maxSEE)
    let testResult := calculateSGPA testSubjects config
    let marginalGain := testResult.sgpa - currentResult.sgpa
    if targetSgpa ≤ currentResult.sgpa then
      some { code := currentSubject.code, name := currentSubject.name
             currentSee := currentSee, minSeeToReachTarget := currentSee
             achievedSgpa := currentResult.sgpa, possible := true
             marginalGain := marginalGain }
    else
      let res := searchLoop (sgpaAt subjects targetIndex config) targetSgpa
        currentSee config.maxSEE (-1) currentResult.sgpa
      some { code := currentSubject.code, name := currentSubject.name
             currentSee := currentSee, minSeeToReachTarget := res.1
             achievedSgpa := res.2, possible := decide (res.1 ≠ -1)
             marginalGain := marginalGain }

/-- The `{ valid, errors }` record returned by `validateSubject`. -/
structure ValidationResult where
  valid : Bool
  errors : List String
deriving DecidableEq, Repr

/-- `validateSubject` from SGPAEngine.ts (`!subject.code` / `!subject.name`
is string emptiness for the string fields). -/
def validateSubject (subject : Subject)
    (config : GradingConfig := DEFAULT_GRADING_CONFIG) : ValidationResult :=
  let errors : List String :=
    (if subject.cie < 0 ∨ config.maxCIE < subject.cie
      then ["CIE must be between 0 and maxCIE"] else []) ++
    (if subject.see < 0 ∨ config.maxSEE < subject.see
      then ["SEE must be between 0 and maxSEE"] else []) ++
    (if subject.credits ≤ 0 then ["Credits must be positive"] else []) ++
    (if subject.code = "" ∨ subject.name = ""
      then ["Subject code and name are required"] else [])
  { valid := errors.isEmpty, errors := errors }

/-- `interface GlobalPlanStep` from SGPAEngine.ts. -/
structure GlobalPlanStep where
  code : String
  name : String
  fromSee : ℚ
  toSee : ℚ
  increaseSeeBy : ℚ
  sgpaAfter : ℚ
deriving DecidableEq, Repr

/-- `interface GlobalPlan` from SGPAEngine.ts. -/
structure GlobalPlan where
  steps : List GlobalPlanStep
  finalSgpa : ℚ
  targetReached : Bool
  bestAttainableSgpa : ℚ
deriving DecidableEq, Repr

/-- A store of subject records.  JS objects are mutable references; an "array
of subjects" held by a caller is a list of addresses into such a store, and a
field assignment is `List.set` at an address. -/
def heapGet (h : List Subject) (a : ℕ) : Subject := h.getD a defaultSubject

/-- Read an array of subject references out of the store. -/
def resolve (h : List Subject) (addrs : List ℕ) : List Subject :=
  addrs.map (heapGet h)

/-- `subjects.map(s => ({ ...s }))`: allocate fresh copies of the given
records, returning the grown store and the fresh addresses. -/
def allocCopies (h : List Subject) (ss : List Subject) : List Subject × List ℕ :=
  (h ++ ss, List.range' h.length ss.length)

/-- The `for (let i = 0; i < workingSubjects.length; i++)` marginal-gain scan
of `greedyGlobalPlan`: returns `(bestSubjectIndex, bestMarginalGain)` with
`none` for the initial `-1` index. -/
def bestSubjectScan (ws : List Subject) (curSgpa : ℚ) (config : GradingConfig) :
    Option ℕ × ℚ :=
  (List.range ws.length).foldl
    (fun acc i =>
      let s := ws.getD i defaultSubject
      if config.maxSEE ≤ s.see then acc
      else
        let testSubjects := replaceSee ws i (min (s.see + 1) config.maxSEE)
        let testResult := calculateSGPA testSubjects config
        let marginalGain := testResult.sgpa - curSgpa
        if acc.2 < marginalGain then (some i, marginalGain) else acc)
    (none, 0)

/-- The `while` loop of `greedyGlobalPlan` acting on the store; the fuel is
`maxIterations - iterations` for the source's `maxIterations = 1000` cap.
The only assignment in the source,
`workingSubjects[bestSubjectIndex].see = toSee`, is the `List.set` at the
working copy's address. -/
def greedyLoopH (targetSgpa : ℚ) (config : GradingConfig) :
    ℕ → List Subject → List ℕ → List GlobalPlanStep → SGPAResult →
    List Subject × List GlobalPlanStep × SGPAResult
  | 0, h, _, steps, cur => (h, steps, cur)
  | fuel + 1, h, waddrs, steps, cur =>
    if cur.sgpa < targetSgpa then
      let ws := resolve h waddrs
      if ws.all fun s => config.maxSEE ≤ s.see then (h, steps, cur)
      else
        match (bestSubjectScan ws cur.sgpa config).1 with
        | none => (h, steps, cur)
        | some i =>
          let subject := ws.getD i defaultSubject
          let criticals := calculateCriticalSEEValues subject.cie config
          let nextCritical := criticals.find? fun c =>
            decide (subject.see < c.seeCrit) && c.reachable
          let toSee := match nextCritical with
            | some c => min c.seeCrit config.maxSEE
            | none => min (subject.see + 1) config.maxSEE
          let h2 := h.set (waddrs.getD i 0) { subject with see := toSee }
          let cur2 := calculateSGPA (resolve h2 waddrs) config
          let steps2 := steps ++
            [{ code := subject.code, name := subject.name, fromSee := subject.see
               toSee := toSee, increaseSeeBy := toSee - subject.see
               sgpaAfter := cur2.sgpa }]
          if targetSgpa ≤ cur2.sgpa then (h2, steps2, cur2)
          else greedyLoopH targetSgpa config fuel h2 waddrs steps2 cur2
    else (h, steps, cur)

/-- `greedyGlobalPlan` from SGPAEngine.ts in store-passing form: takes the
store and the addresses of the caller's subject records, and returns the
final store together with the returned `GlobalPlan`. -/
def greedyGlobalPlan (h : List Subject) (addrs : List ℕ) (targetSgpa : ℚ)
    (config : GradingConfig := DEFAULT_GRADING_CONFIG) :
    List Subject × GlobalPlan :=
  let alloc := allocCopies h (resolve h addrs)
  let h1 := alloc.1
  let waddrs := alloc.2
  let currentResult := calculateSGPA (resolve h1 waddrs) config
  let loopResult := greedyLoopH targetSgpa config 1000 h1 waddrs [] currentResult
  let h2 := loopResult.1
  let steps := loopResult.2.1
  let finalResult := loopResult.2.2
  let maxSubjects := (resolve h2 addrs).map fun s => { s with see := config.maxSEE }
  let maxResult := calculateSGPA maxSubjects config
  (h2,
   { steps := steps
     finalSgpa := finalResult.sgpa
     targetReached := decide (targetSgpa ≤ finalResult.sgpa)
     bestAttainableSgpa := maxResult.sgpa })

/-- `calculateSGPA` viewed against the store: its body contains no assignment
to an existing record, so it only reads the store. -/
def calculateSGPAH (h : List Subject) (addrs : List ℕ)
    (config : GradingConfig := DEFAULT_GRADING_CONFIG) :
    List Subject × SGPAResult :=
  (h, calculateSGPA (resolve h addrs) config)

/-- `findMinimalSEEForTarget` viewed against the store: all hypothetical
mark changes go through `replaceSee`, which builds a fresh array of fresh
records, so the store is only read. -/
def findMinimalSEEForTargetH (h : List Subject) (addrs : List ℕ)
    (targetSubjectCode : String) (targetSgpa : ℚ)
    (config : GradingConfig := DEFAULT_GRADING_CONFIG) :
    List Subject × Option SubjectPlan :=
  (h, findMinimalSEEForTarget (resolve h addrs) targetSubjectCode targetSgpa config)

/-- Grade points are monotone non-decreasing in `min` across the bucket table
(the planner precondition the spec records in §4.4/§9). -/
def MonotoneBuckets (config : GradingConfig) : Prop :=
  ∀ b ∈ config.buckets, ∀ c ∈ config.buckets, b.min ≤ c.min → b.gp ≤ c.gp

/-- The marks scale is positive (spec §7 treats non-positive scale
denominators as a `ConfigurationError`). -/
def ValidScale (config : GradingConfig) : Prop :=
  0 < config.maxCIE ∧ 0 < config.maxSEE

/-- A grading config whose grade points are *not* monotone in the bucket
minimum: totals of 50 and above earn fewer points than lower totals. -/
def nonMonotoneConfig : GradingConfig :=
  { maxCIE := 50, maxSEE := 100, roundingDigits := 2
    buckets := [ { min := 50, gp := 1, label := "hi" }
               , { min := 0, gp := 10, label := "lo" } ] }

/-- A grading config without the required floor bucket: no bucket matches a
total below 50. -/
def floorlessConfig : GradingConfig :=
  { maxCIE := 50, maxSEE := 100, roundingDigits := 2
    buckets := [ { min := 50, gp := 6, label := "B" } ] }

/-- The weighted points a subject contributes to the semester:
`gpForTotal(calculateTotal(cie, see)) * credits`. -/
def weightedOf (config : GradingConfig) (s : Subject) : ℚ :=
  gpForTotal (calculateTotal s.cie s.see config) config * s.credits

end SGPAEngine

namespace BackendCalc

/-- `scaleSee` from the backend calculation utilities. -/
def scaleSee (see : ℚ) : ℚ := see / 2

/-- `getGradePoint` from the backend calculation utilities. -/
def getGradePoint (total : ℚ) : ℚ :=
  if 90 ≤ total then 10
  else if 80 ≤ total then 9
  else if 70 ≤ total then 8
  else if 60 ≤ total then 7
  else if 50 ≤ total then 6
  else if 40 ≤ total then 5
  else 4

/-- `round2`: `Math.round(n * 100) / 100`. -/
def round2 (n : ℚ) : ℚ := (jsRound (n * 100) : ℚ) / 100

/-- The `Pick<Subject, 'credits' | 'cie' | 'see'>` rows the backend consumes. -/
structure SubjectMarks where
  cie : ℚ
  see : ℚ
  credits : ℚ
deriving DecidableEq, Repr

/-- `ComputedSubjectMetrics` from the backend calculation utilities. -/
structure ComputedSubjectMetrics where
  total : ℚ
  gp : ℚ
  weighted : ℚ
deriving DecidableEq, Repr

/-- `computeSubjectMetrics` from the backend calculation utilities. -/
def computeSubjectMetrics (cie see credits : ℚ) : ComputedSubjectMetrics :=
  let total := cie + scaleSee see
  let gp := getGradePoint total
  let weighted := gp * credits
  { total := total, gp := gp, weighted := weighted }

/-- One element of `aggregateSGPA`'s `detailed` array. -/
structure DetailedRow where
  gp : ℚ
  weighted : ℚ
  credits : ℚ
deriving DecidableEq, Repr

/-- Result record of `aggregateSGPA`. -/
structure SGPAAggregate where
  sgpa : ℚ
  totalCredits : ℚ
  totalWeighted : ℚ
  maxSgpaIfAll100 : ℚ
deriving DecidableEq, Repr

/-- `aggregateSGPA` from the backend calculation utilities
(`totalCredits ? x : 0` is JS number truthiness, i.e. a `≠ 0` test). -/
def aggregateSGPA (subjects : List SubjectMarks) : SGPAAggregate :=
  let detailed : List DetailedRow := subjects.map fun s =>
    let m := computeSubjectMetrics s.cie s.see s.credits
    { gp := m.gp, weighted := m.weighted, credits := s.credits }
  let totalCredits : ℚ := detailed.foldl (fun a b => a + b.credits) 0
  let totalWeighted : ℚ := detailed.foldl (fun a b => a + b.weighted) 0
  let sgpa : ℚ := if totalCredits = 0 then 0 else totalWeighted / totalCredits
  let maxWeighted : ℚ := subjects.foldl
    (fun sum s =>
      let maxTotal := s.cie + scaleSee 100
      let maxGp := getGradePoint maxTotal
      sum + maxGp * s.credits) 0
  let maxSgpaIfAll100 : ℚ := if totalCredits = 0 then 0 else maxWeighted / totalCredits
  { sgpa := round2 sgpa
    totalCredits := totalCredits
    totalWeighted := round2 totalWeighted
    maxSgpaIfAll100 := round2 maxSgpaIfAll100 }

/-- One row of `aggregateCGPA`'s `semesterBreakdown`. -/
structure SemesterBreakdown where
  semesterId : String
  name : String
  sgpa : ℚ
  credits : ℚ
deriving DecidableEq, Repr

/-- A `Semester & { subjects: Subject[] }` row as consumed by `aggregateCGPA`. -/
structure SemesterWithSubjects where
  id : String
  name : String
  subjects : List SubjectMarks
deriving DecidableEq, Repr

/-- Result record of `aggregateCGPA`. -/
structure CGPAAggregate where
  cgpa : ℚ
  totalCredits : ℚ
  semesterBreakdown : List SemesterBreakdown
deriving DecidableEq, Repr

/-- `aggregateCGPA` from the backend calculation utilities. -/
def aggregateCGPA (semesters : List SemesterWithSubjects) : CGPAAggregate :=
  let semesterBreakdown : List SemesterBreakdown := semesters.map fun sem =>
    let agg := aggregateSGPA sem.subjects
    { semesterId := sem.id, name := sem.name, sgpa := agg.sgpa
      credits := agg.totalCredits }
  let totalCredits : ℚ := semesterBreakdown.foldl (fun a b => a + b.credits) 0
  let weightedSum : ℚ := semesterBreakdown.foldl (fun a b => a + b.sgpa * b.credits) 0
  let cgpa : ℚ := if totalCredits = 0 then 0 else weightedSum / totalCredits
  { cgpa := round2 cgpa, totalCredits := totalCredits
    semesterBreakdown := semesterBreakdown }

end BackendCalc

-- sanity checks (evaluation by kernel)
example : SGPAEngine.gpForTotal 90 SGPAEngine.DEFAULT_GRADING_CONFIG = 10 := by decide
example : SGPAEngine.gpForTotal (89999/1000) SGPAEngine.DEFAULT_GRADING_CONFIG = 9 := by decide
example : SGPAEngine.roundTo (59/7) 2 = 843/100 := by decide
example :
    (SGPAEngine.calculateSGPA
      [ { code := "A", name := "A", cie := 40, see := 60, credits := 4 }
      , { code := "B", name := "B", cie := 45, see := 80, credits := 3 } ]
      SGPAEngine.DEFAULT_GRADING_CONFIG).sgpa = 843/100 := by decide

/-! ### Fold and sum helpers -/

theorem foldl_add_eq {α : Type} (g : α → ℚ) (l : List α) : ∀ init : ℚ,
    l.foldl (fun sum x => sum + g x) init = init + (l.map g).sum := by
  induction l with
  | nil => intro init; simp
  | cons x xs ih =>
    intro init
    rw [List.foldl_cons, ih, List.map_cons, List.sum_cons]
    ring

theorem sum_le_sum_forall₂ {α β : Type} (f : α → ℚ) (g : β → ℚ)
    {l : List α} {l2 : List β}
    (h : List.Forall₂ (fun a b => f a ≤ g b) l l2) :
    (l.map f).sum ≤ (l2.map g).sum := by
  induction h with
  | nil => simp
  | cons hab _ ih =>
    simp only [List.map_cons, List.sum_cons]
    exact add_le_add hab ih

theorem sum_eq_sum_forall₂ {α β : Type} (f : α → ℚ) (g : β → ℚ)
    {l : List α} {l2 : List β}
    (h : List.Forall₂ (fun a b => f a = g b) l l2) :
    (l.map f).sum = (l2.map g).sum := by
  induction h with
  | nil => simp
  | cons hab _ ih =>
    simp only [List.map_cons, List.sum_cons]
    rw [hab, ih]

namespace SGPAEngine

/-! ### The stable descending bucket sort -/

theorem mem_insertDesc {b x : GradeBucket} : ∀ {l : List GradeBucket},
    x ∈ insertDesc b l ↔ x = b ∨ x ∈ l := by
  intro l
  induction l with
  | nil => simp [insertDesc]
  | cons c cs ih =>
    rw [insertDesc]
    split
    · simp [List.mem_cons]
    · simp only [List.mem_cons, ih]
      tauto

theorem pairwise_insertDesc {b : GradeBucket} : ∀ {l : List GradeBucket},
    l.Pairwise (fun x y => y.min ≤ x.min) →
    (insertDesc b l).Pairwise (fun x y => y.min ≤ x.min) := by
  intro l
  induction l with
  | nil => intro _; simp [insertDesc]
  | cons c cs ih =>
    intro h
    rcases List.pairwise_cons.mp h with ⟨hc, hcs⟩
    rw [insertDesc]
    split
    · rename_i hlt
      refine List.pairwise_cons.mpr ⟨?_, h⟩
      intro y hy
      rcases List.mem_cons.mp hy with rfl | hy
      · exact le_of_lt hlt
      · exact le_trans (hc y hy) (le_of_lt hlt)
    · rename_i hge
      refine List.pairwise_cons.mpr ⟨?_, ih hcs⟩
      intro y hy
      rcases mem_insertDesc.mp hy with rfl | hy
      · exact not_lt.mp hge
      · exact hc y hy

theorem mem_sortDesc_aux (x : GradeBucket) : ∀ (l acc : List GradeBucket),
    x ∈ l.foldl (fun a b => insertDesc b a) acc ↔ x ∈ l ∨ x ∈ acc := by
  intro l
  induction l with
  | nil => simp
  | cons b bs ih =>
    intro acc
    rw [List.foldl_cons, ih, mem_insertDesc, List.mem_cons]
    tauto

theorem mem_sortDesc {x : GradeBucket} {l : List GradeBucket} :
    x ∈ sortDesc l ↔ x ∈ l := by
  rw [sortDesc, mem_sortDesc_aux]
  simp

theorem pairwise_sortDesc_aux : ∀ (l acc : List GradeBucket),
    acc.Pairwise (fun x y => y.min ≤ x.min) →
    (l.foldl (fun a b => insertDesc b a) acc).Pairwise (fun x y => y.min ≤ x.min) := by
  intro l
  induction l with
  | nil => intro acc h; exact h
  | cons b bs ih =>
    intro acc h
    rw [List.foldl_cons]
    exact ih _ (pairwise_insertDesc h)

theorem pairwise_sortDesc (l : List GradeBucket) :
    (sortDesc l).Pairwise (fun x y => y.min ≤ x.min) :=
  pairwise_sortDesc_aux l [] (List.Pairwise.nil)

/-! ### The first-match grade-point scan -/

theorem firstGp_cases (t : ℚ) : ∀ l : List GradeBucket,
    firstGp t l = 0 ∨ ∃ b ∈ l, b.min ≤ t ∧ firstGp t l = b.gp := by
  intro l
  induction l with
  | nil => left; rfl
  | cons b bs ih =>
    rw [firstGp]
    split
    · right
      exact ⟨b, List.mem_cons_self b bs, by assumption, rfl⟩
    · rcases ih with h | ⟨c, hc, hct, he⟩
      · left; exact h
      · right; exact ⟨c, List.mem_cons_of_mem _ hc, hct, he⟩

theorem firstGp_eq_zero_of_nomatch {t : ℚ} : ∀ {l : List GradeBucket},
    (∀ b ∈ l, ¬ b.min ≤ t) → firstGp t l = 0 := by
  intro l
  induction l with
  | nil => intro _; rfl
  | cons b bs ih =>
    intro h
    rw [firstGp, if_neg (h b (List.mem_cons_self b bs))]
    exact ih fun c hc => h c (List.mem_cons_of_mem _ hc)

/-- On a descending-sorted table, the scan returns the grade point of a
matching bucket with the greatest minimum among all matches. -/
theorem firstGp_spec {t : ℚ} : ∀ {l : List GradeBucket},
    l.Pairwise (fun x y => y.min ≤ x.min) →
    (∃ b ∈ l, b.min ≤ t) →
    ∃ b ∈ l, b.min ≤ t ∧ firstGp t l = b.gp ∧
      ∀ c ∈ l, c.min ≤ t → c.min ≤ b.min := by
  intro l
  induction l with
  | nil => intro _ h; rcases h with ⟨b, hb, _⟩; cases hb
  | cons b bs ih =>
    intro hs hm
    rcases List.pairwise_cons.mp hs with ⟨hb, hbs⟩
    rw [firstGp]
    split
    · rename_i hbt
      refine ⟨b, List.mem_cons_self b bs, hbt, rfl, ?_⟩
      intro c hc _
      rcases List.mem_cons.mp hc with rfl | hc
      · exact le_refl _
      · exact hb c hc
    · rename_i hbt
      have hm2 : ∃ c ∈ bs, c.min ≤ t := by
        rcases hm with ⟨c, hc, hct⟩
        rcases List.mem_cons.mp hc with rfl | hc
        · exact absurd hct hbt
        · exact ⟨c, hc, hct⟩
      rcases ih hbs hm2 with ⟨c, hc, hct, he, hmax⟩
      refine ⟨c, List.mem_cons_of_mem _ hc, hct, he, ?_⟩
      intro d hd hdt
      rcases List.mem_cons.mp hd with rfl | hd
      · exact absurd hdt hbt
      · exact hmax d hd hdt

theorem firstGp_mono_of_nonneg {l : List GradeBucket}
    (hs : l.Pairwise (fun x y => y.min ≤ x.min))
    (hgp : ∀ b ∈ l, 0 ≤ b.gp)
    (hmono : ∀ b ∈ l, ∀ c ∈ l, b.min ≤ c.min → b.gp ≤ c.gp)
    {t u : ℚ} (h : t ≤ u) : firstGp t l ≤ firstGp u l := by
  induction l with
  | nil => exact le_refl _
  | cons b bs ih =>
    rcases List.pairwise_cons.mp hs with ⟨hb, hbs⟩
    rw [firstGp, firstGp]
    by_cases hbt : b.min ≤ t
    · rw [if_pos hbt, if_pos (le_trans hbt h)]
    · rw [if_neg hbt]
      by_cases hbu : b.min ≤ u
      · rw [if_pos hbu]
        rcases firstGp_cases t bs with h0 | ⟨c, hc, _, he⟩
        · rw [h0]
          exact hgp b (List.mem_cons_self b bs)
        · rw [he]
          exact hmono c (List.mem_cons_of_mem _ hc) b (List.mem_cons_self b bs) (hb c hc)
      · rw [if_neg hbu]
        exact ih hbs (fun c hc => hgp c (List.mem_cons_of_mem _ hc))
          (fun c hc d hd => hmono c (List.mem_cons_of_mem _ hc) d (List.mem_cons_of_mem _ hd))

/-- Monotonicity without a sign condition on the grade points, provided the
lower total already matches some bucket. -/
theorem firstGp_mono_of_match {l : List GradeBucket}
    (hs : l.Pairwise (fun x y => y.min ≤ x.min))
    (hmono : ∀ b ∈ l, ∀ c ∈ l, b.min ≤ c.min → b.gp ≤ c.gp)
    {t u : ℚ} (hm : ∃ b ∈ l, b.min ≤ t) (h : t ≤ u) :
    firstGp t l ≤ firstGp u l := by
  induction l with
  | nil => exact le_refl _
  | cons b bs ih =>
    rcases List.pairwise_cons.mp hs with ⟨hb, hbs⟩
    rw [firstGp, firstGp]
    by_cases hbt : b.min ≤ t
    · rw [if_pos hbt, if_pos (le_trans hbt h)]
    · rw [if_neg hbt]
      have hm2 : ∃ c ∈ bs, c.min ≤ t := by
        rcases hm with ⟨c, hc, hct⟩
        rcases List.mem_cons.mp hc with rfl | hc
        · exact absurd hct hbt
        · exact ⟨c, hc, hct⟩
      by_cases hbu : b.min ≤ u
      · rw [if_pos hbu]
        rcases firstGp_spec hbs hm2 with ⟨c, hc, hct, he, _⟩
        rw [he]
        exact hmono c (List.mem_cons_of_mem _ hc) b (List.mem_cons_self b bs)
          (hb c hc)
      · rw [if_neg hbu]
        exact ih hbs
          (fun c hc d hd => hmono c (List.mem_cons_of_mem _ hc) d (List.mem_cons_of_mem _ hd))
          hm2

/-! ### `gpForTotal` facts -/

theorem gpForTotal_spec {t : ℚ} {config : GradingConfig}
    (hm : ∃ b ∈ config.buckets, b.min ≤ t) :
    ∃ b ∈ config.buckets, b.min ≤ t ∧ gpForTotal t config = b.gp ∧
      ∀ c ∈ config.buckets, c.min ≤ t → c.min ≤ b.min := by
  have hm2 : ∃ b ∈ sortDesc config.buckets, b.min ≤ t := by
    rcases hm with ⟨b, hb, hbt⟩
    exact ⟨b, mem_sortDesc.mpr hb, hbt⟩
  rcases firstGp_spec (pairwise_sortDesc config.buckets) hm2 with ⟨b, hb, hbt, he, hmax⟩
  refine ⟨b, mem_sortDesc.mp hb, hbt, he, ?_⟩
  intro c hc hct
  exact hmax c (mem_sortDesc.mpr hc) hct

theorem gpForTotal_eq_zero {t : ℚ} {config : GradingConfig}
    (h : ∀ b ∈ config.buckets, ¬ b.min ≤ t) : gpForTotal t config = 0 :=
  firstGp_eq_zero_of_nomatch fun b hb => h b (mem_sortDesc.mp hb)

theorem gpForTotal_mono_of_nonneg {config : GradingConfig}
    (hgp : ∀ b ∈ config.buckets, 0 ≤ b.gp) (hmono : MonotoneBuckets config)
    {t u : ℚ} (h : t ≤ u) : gpForTotal t config ≤ gpForTotal u config :=
  firstGp_mono_of_nonneg (pairwise_sortDesc config.buckets)
    (fun b hb => hgp b (mem_sortDesc.mp hb))
    (fun b hb c hc => hmono b (mem_sortDesc.mp hb) c (mem_sortDesc.mp hc)) h

theorem gpForTotal_mono_of_match {config : GradingConfig}
    (hmono : MonotoneBuckets config)
    {t u : ℚ} (hm : ∃ b ∈ config.buckets, b.min ≤ t) (h : t ≤ u) :
    gpForTotal t config ≤ gpForTotal u config := by
  apply firstGp_mono_of_match (pairwise_sortDesc config.buckets)
    (fun b hb c hc => hmono b (mem_sortDesc.mp hb) c (mem_sortDesc.mp hc)) ?_ h
  rcases hm with ⟨b, hb, hbt⟩
  exact ⟨b, mem_sortDesc.mpr hb, hbt⟩

/-! ### Rounding -/

theorem roundTo_mono {a b : ℚ} (h : a ≤ b) (digits : ℕ) :
    roundTo a digits ≤ roundTo b digits := by
  unfold roundTo
  have hp : (0:ℚ) < 10 ^ digits := by positivity
  have hr : jsRound (a * 10 ^ digits) ≤ jsRound (b * 10 ^ digits) :=
    jsRound_mono (mul_le_mul_of_nonneg_right h (le_of_lt hp))
  exact (div_le_div_iff_of_pos_right hp).mpr (Int.cast_le.mpr hr)

theorem roundTo_zero (digits : ℕ) : roundTo 0 digits = 0 := by
  unfold roundTo
  rw [zero_mul, show ((0:ℚ) = ((0:ℤ):ℚ)) by norm_num, jsRound_intCast]
  norm_num

/-! ### `calculateSGPA` field characterisations -/

theorem calculateSGPA_totalCredits (subjects : List Subject) (config : GradingConfig) :
    (calculateSGPA subjects config).totalCredits = (subjects.map (·.credits)).sum := by
  simp only [calculateSGPA]
  rw [foldl_add_eq, List.map_map]
  simp [Function.comp_def]

theorem calculateSGPA_totalWeighted (subjects : List Subject) (config : GradingConfig) :
    (calculateSGPA subjects config).totalWeighted
      = (subjects.map (weightedOf config)).sum := by
  simp only [calculateSGPA]
  rw [foldl_add_eq, List.map_map]
  simp [Function.comp_def, calculateWeightedPoints]
  rfl

theorem calculateSGPA_sgpa (subjects : List Subject) (config : GradingConfig) :
    (calculateSGPA subjects config).sgpa =
      roundTo
        (if 0 < (subjects.map (·.credits)).sum
          then (subjects.map (weightedOf config)).sum / (subjects.map (·.credits)).sum
          else 0)
        config.roundingDigits := by
  simp only [calculateSGPA]
  rw [foldl_add_eq, foldl_add_eq, List.map_map, List.map_map]
  simp [Function.comp_def, calculateWeightedPoints]
  rfl

theorem calculateSGPA_maxSgpa (subjects : List Subject) (config : GradingConfig) :
    (calculateSGPA subjects config).maxSgpaIfAll100 =
      roundTo
        (if 0 < (subjects.map (·.credits)).sum
          then (subjects.map fun s => weightedOf config { s with see := config.maxSEE }).sum
            / (subjects.map (·.credits)).sum
          else 0)
        config.roundingDigits := by
  simp only [calculateSGPA]
  rw [foldl_add_eq, foldl_add_eq, List.map_map, List.map_map]
  simp [Function.comp_def, calculateWeightedPoints]
  rfl

/-! ### Pointwise comparison of semesters -/

/-- If two subject lists agree pointwise on credits and compare pointwise on
weighted points, the semester SGPA compares the same way. -/
theorem calculateSGPA_sgpa_le {config : GradingConfig} {subs subs2 : List Subject}
    (hrel : List.Forall₂
      (fun s s2 => s.credits = s2.credits ∧ weightedOf config s ≤ weightedOf config s2)
      subs subs2) :
    (calculateSGPA subs config).sgpa ≤ (calculateSGPA subs2 config).sgpa := by
  have hc : (subs.map (·.credits)).sum = (subs2.map (·.credits)).sum :=
    sum_eq_sum_forall₂ _ _ (hrel.imp fun a b h => h.1)
  have hw : (subs.map (weightedOf config)).sum ≤ (subs2.map (weightedOf config)).sum :=
    sum_le_sum_forall₂ _ _ (hrel.imp fun a b h => h.2)
  rw [calculateSGPA_sgpa, calculateSGPA_sgpa, ← hc]
  apply roundTo_mono _ config.roundingDigits
  split
  · rename_i hC
    exact (div_le_div_iff_of_pos_right hC).mpr hw
  · exact le_refl 0

theorem calculateSGPA_sgpa_eq {config : GradingConfig} {subs subs2 : List Subject}
    (hrel : List.Forall₂
      (fun s s2 => s.credits = s2.credits ∧ weightedOf config s = weightedOf config s2)
      subs subs2) :
    (calculateSGPA subs config).sgpa = (calculateSGPA subs2 config).sgpa := by
  apply le_antisymm
  · exact calculateSGPA_sgpa_le (hrel.imp fun a b h => ⟨h.1, le_of_eq h.2⟩)
  · exact calculateSGPA_sgpa_le ((hrel.flip).imp fun a b h => ⟨h.1.symm, ge_of_eq h.2⟩)

/-! ### `replaceSee` -/

theorem replaceSee_self (subs : List Subject) : ∀ i : ℕ,
    replaceSee subs i ((subs.getD i defaultSubject).see) = subs := by
  induction subs with
  | nil => intro i; rfl
  | cons s rest ih =>
    intro i
    cases i with
    | zero => rfl
    | succ i => simpa [replaceSee, List.getD_cons_succ] using ih i

theorem getD_replaceSee (subs : List Subject) : ∀ (i : ℕ) (v : ℚ), i < subs.length →
    (replaceSee subs i v).getD i defaultSubject =
      { subs.getD i defaultSubject with see := v } := by
  induction subs with
  | nil => intro i v h; cases h
  | cons s rest ih =>
    intro i v h
    cases i with
    | zero => rfl
    | succ i =>
      simp only [replaceSee, List.getD_cons_succ]
      exact ih i v (by simpa using h)

/-- The pointwise relation between two see-replacements of the same list at
the same index. -/
theorem forall₂_replaceSee {config : GradingConfig} (subs : List Subject) :
    ∀ (i : ℕ) (x y : ℚ),
    (weightedOf config { subs.getD i defaultSubject with see := x } ≤
      weightedOf config { subs.getD i defaultSubject with see := y }) →
    List.Forall₂
      (fun s s2 => s.credits = s2.credits ∧ weightedOf config s ≤ weightedOf config s2)
      (replaceSee subs i x) (replaceSee subs i y) := by
  induction subs with
  | nil => intro i x y _; exact List.Forall₂.nil
  | cons s rest ih =>
    intro i x y hw
    cases i with
    | zero =>
      refine List.Forall₂.cons ⟨rfl, ?_⟩ ?_
      · simpa [List.getD_cons_zero] using hw
      · exact List.forall₂_same.mpr fun t _ => ⟨rfl, le_refl _⟩
    | succ i =>
      refine List.Forall₂.cons ⟨rfl, le_refl _⟩ ?_
      exact ih i x y (by simpa [List.getD_cons_succ] using hw)

/-! ### Monotonicity of a subject's metrics in its SEE marks -/

theorem calculateTotal_mono {config : GradingConfig} (hs : ValidScale config)
    (cie : ℚ) {x y : ℚ} (h : x ≤ y) :
    calculateTotal cie x config ≤ calculateTotal cie y config := by
  unfold calculateTotal scaleSEE
  have hk : 0 < config.maxSEE / config.maxCIE := div_pos hs.2 hs.1
  have := (div_le_div_iff_of_pos_right hk).mpr h
  linarith

theorem weightedOf_mono_see {config : GradingConfig} (hs : ValidScale config)
    (hgp : ∀ b ∈ config.buckets, 0 ≤ b.gp) (hmono : MonotoneBuckets config)
    (s : Subject) (hc : 0 ≤ s.credits) {x y : ℚ} (h : x ≤ y) :
    weightedOf config { s with see := x } ≤ weightedOf config { s with see := y } := by
  unfold weightedOf
  apply mul_le_mul_of_nonneg_right _ hc
  exact gpForTotal_mono_of_nonneg hgp hmono (calculateTotal_mono hs s.cie h)

theorem weightedOf_mono_see_of_match {config : GradingConfig} (hs : ValidScale config)
    (hmono : MonotoneBuckets config)
    (s : Subject) (hc : 0 ≤ s.credits) {x y : ℚ} (h : x ≤ y)
    (hmatch : ∃ b ∈ config.buckets, b.min ≤ calculateTotal s.cie x config) :
    weightedOf config { s with see := x } ≤ weightedOf config { s with see := y } := by
  unfold weightedOf
  apply mul_le_mul_of_nonneg_right _ hc
  exact gpForTotal_mono_of_match hmono hmatch (calculateTotal_mono hs s.cie h)

theorem weightedOf_eq_of_nomatch {config : GradingConfig} (s : Subject) {x y : ℚ}
    (hx : ∀ b ∈ config.buckets, ¬ b.min ≤ calculateTotal s.cie x config)
    (hy : ∀ b ∈ config.buckets, ¬ b.min ≤ calculateTotal s.cie y config) :
    weightedOf config { s with see := x } = weightedOf config { s with see := y } := by
  unfold weightedOf
  rw [show ({ s with see := x } : Subject).cie = s.cie from rfl,
    show ({ s with see := y } : Subject).cie = s.cie from rfl,
    show ({ s with see := x } : Subject).see = x from rfl,
    show ({ s with see := y } : Subject).see = y from rfl,
    gpForTotal_eq_zero hx, gpForTotal_eq_zero hy]

/-- Generic version of `forall₂_replaceSee` over an arbitrary reflexive
relation on weighted points. -/
theorem forall₂_replaceSee_rel {config : GradingConfig} (R : ℚ → ℚ → Prop)
    (hR : ∀ q, R q q) (subs : List Subject) :
    ∀ (i : ℕ) (x y : ℚ),
    R (weightedOf config { subs.getD i defaultSubject with see := x })
      (weightedOf config { subs.getD i defaultSubject with see := y }) →
    List.Forall₂
      (fun s s2 => s.credits = s2.credits ∧ R (weightedOf config s) (weightedOf config s2))
      (replaceSee subs i x) (replaceSee subs i y) := by
  induction subs with
  | nil => intro i x y _; exact List.Forall₂.nil
  | cons s rest ih =>
    intro i x y hw
    cases i with
    | zero =>
      refine List.Forall₂.cons ⟨rfl, ?_⟩ ?_
      · simpa [List.getD_cons_zero] using hw
      · exact List.forall₂_same.mpr fun t _ => ⟨rfl, hR _⟩
    | succ i =>
      refine List.Forall₂.cons ⟨rfl, hR _⟩ ?_
      exact ih i x y (by simpa [List.getD_cons_succ] using hw)

theorem credits_getD_nonneg {subs : List Subject}
    (hcred : ∀ s ∈ subs, 0 ≤ s.credits) (i : ℕ) :
    0 ≤ (subs.getD i defaultSubject).credits := by
  by_cases hi : i < subs.length
  · rw [List.getD_eq_getElem subs defaultSubject hi]
    exact hcred _ (List.getElem_mem hi)
  · rw [List.getD_eq_default subs defaultSubject (le_of_not_lt hi)]
    exact le_refl 0

/-- Raising one subject's SEE, holding everything else fixed, never lowers
that subject's grade point, its weighted points, or the semester SGPA —
for a positive-scale config with nonnegative grade points that are monotone
in the bucket minimum. -/
theorem see_increase_monotone {config : GradingConfig} (hs : ValidScale config)
    (hgp : ∀ b ∈ config.buckets, 0 ≤ b.gp) (hmono : MonotoneBuckets config)
    (subs : List Subject) (i : ℕ) (hcred : ∀ s ∈ subs, 0 ≤ s.credits)
    {w : ℚ} (hw : (subs.getD i defaultSubject).see ≤ w) :
    gpForTotal (calculateTotal (subs.getD i defaultSubject).cie
        (subs.getD i defaultSubject).see config) config ≤
      gpForTotal (calculateTotal (subs.getD i defaultSubject).cie w config) config ∧
    weightedOf config (subs.getD i defaultSubject) ≤
      weightedOf config { subs.getD i defaultSubject with see := w } ∧
    (calculateSGPA subs config).sgpa ≤ (calculateSGPA (replaceSee subs i w) config).sgpa := by
  have hcs : 0 ≤ (subs.getD i defaultSubject).credits := credits_getD_nonneg hcred i
  refine ⟨?_, ?_, ?_⟩
  · exact gpForTotal_mono_of_nonneg hgp hmono (calculateTotal_mono hs _ hw)
  · exact weightedOf_mono_see hs hgp hmono _ hcs hw
  · conv_lhs => rw [← replaceSee_self subs i]
    apply calculateSGPA_sgpa_le
    apply forall₂_replaceSee_rel (· ≤ ·) (fun q => le_refl q) subs i _ w
    exact weightedOf_mono_see hs hgp hmono _ hcs hw

/-- Monotonicity of the binary-search predicate on `[low, ∞)`: when the SGPA
at the low end of the range does not already meet the target, "the SGPA at
probe x meets the target" is upward closed in x — even if grade points may be
negative (the only descent a monotone bucket table allows is the fall from
the unmatched-fallback 0 into a negative bucket, and a probe inside that
unmatched region scores exactly like the low end). -/
theorem sgpaAt_pred_mono {config : GradingConfig} (hs : ValidScale config)
    (hmono : MonotoneBuckets config) (subs : List Subject) (idx : ℕ)
    (hcred : ∀ s ∈ subs, 0 ≤ s.credits) (t : ℚ) (low : ℤ)
    (hlow : ¬ t ≤ sgpaAt subs idx config low) :
    ∀ x y : ℤ, low ≤ x → x ≤ y →
      t ≤ sgpaAt subs idx config x → t ≤ sgpaAt subs idx config y := by
  intro x y hlx hxy hPx
  have hcs : 0 ≤ (subs.getD idx defaultSubject).credits := credits_getD_nonneg hcred idx
  by_cases hmatch : ∃ b ∈ config.buckets,
      b.min ≤ calculateTotal (subs.getD idx defaultSubject).cie (x : ℚ) config
  · refine le_trans hPx ?_
    unfold sgpaAt
    apply calculateSGPA_sgpa_le
    apply forall₂_replaceSee_rel (· ≤ ·) (fun q => le_refl q) subs idx
    exact weightedOf_mono_see_of_match hs hmono _ hcs (by exact_mod_cast hxy) hmatch
  · exfalso
    apply hlow
    have hnx : ∀ b ∈ config.buckets,
        ¬ b.min ≤ calculateTotal (subs.getD idx defaultSubject).cie (x : ℚ) config :=
      fun b hb hbt => hmatch ⟨b, hb, hbt⟩
    have hnl : ∀ b ∈ config.buckets,
        ¬ b.min ≤ calculateTotal (subs.getD idx defaultSubject).cie (low : ℚ) config := by
      intro b hb hbt
      exact hnx b hb
        (le_trans hbt (calculateTotal_mono hs _ (by exact_mod_cast hlx)))
    have heq : sgpaAt subs idx config x = sgpaAt subs idx config low := by
      unfold sgpaAt
      apply calculateSGPA_sgpa_eq
      apply forall₂_replaceSee_rel (· = ·) (fun q => rfl) subs idx
      exact weightedOf_eq_of_nomatch _ hnx hnl
    rw [← heq]
    exact hPx

/-! ### Binary-search loop correctness (for integer bounds) -/

theorem searchLoop_of_none (sg : ℤ → ℚ) (t : ℚ) : ∀ (n : ℕ) (l r : ℤ),
    (r + 1 - l).toNat ≤ n → ∀ (acc accS : ℚ),
    (∀ x : ℤ, l ≤ x → x ≤ r → ¬ t ≤ sg x) →
    searchLoop sg t (l : ℚ) (r : ℚ) acc accS = (acc, accS) := by
  intro n
  induction n with
  | zero =>
    intro l r hn acc accS _
    have hlr : ¬ ((l : ℚ) ≤ (r : ℚ)) := by
      intro hle
      have : l ≤ r := by exact_mod_cast hle
      omega
    rw [searchLoop, dif_neg hlr]
  | succ n ih =>
    intro l r hn acc accS hnone
    by_cases hlr : l ≤ r
    · have hql : (l : ℚ) ≤ (r : ℚ) := by exact_mod_cast hlr
      rw [searchLoop, dif_pos hql]
      set m : ℤ := ⌊((l : ℚ) + (r : ℚ)) / 2⌋ with hm
      have hlm : l ≤ m := by
        rw [hm]
        apply Int.le_floor.mpr
        linarith
      have hmr : m ≤ r := by
        rw [hm]
        have h2 : ((l : ℚ) + r) / 2 ≤ (r : ℚ) := by linarith
        calc ⌊((l : ℚ) + (r : ℚ)) / 2⌋ ≤ ⌊(r : ℚ)⌋ := Int.floor_le_floor h2
          _ = r := Int.floor_intCast r
      rw [if_neg (hnone m hlm hmr),
        show ((m : ℚ) + 1) = ((m + 1 : ℤ) : ℚ) by push_cast; ring]
      apply ih (m + 1) r (by omega) acc accS
      intro x hx1 hx2
      exact hnone x (by omega) hx2
    · rw [searchLoop, dif_neg (by exact_mod_cast hlr)]

theorem searchLoop_found (sg : ℤ → ℚ) (t : ℚ) (L : ℤ)
    (mono : ∀ x y : ℤ, L ≤ x → x ≤ y → t ≤ sg x → t ≤ sg y) :
    ∀ (n : ℕ) (l r : ℤ), (r + 1 - l).toNat ≤ n → L ≤ l → ∀ (k : ℤ) (acc accS : ℚ),
    l ≤ k → k ≤ r → t ≤ sg k → (∀ j : ℤ, l ≤ j → j < k → ¬ t ≤ sg j) →
    searchLoop sg t (l : ℚ) (r : ℚ) acc accS = ((k : ℚ), sg k) := by
  intro n
  induction n with
  | zero =>
    intro l r hn _ k acc accS hlk hkr _ _
    omega
  | succ n ih =>
    intro l r hn hLl k acc accS hlk hkr hk hleast
    have hlr : l ≤ r := le_trans hlk hkr
    have hql : (l : ℚ) ≤ (r : ℚ) := by exact_mod_cast hlr
    rw [searchLoop, dif_pos hql]
    set m : ℤ := ⌊((l : ℚ) + (r : ℚ)) / 2⌋ with hm
    have hlm : l ≤ m := by
      rw [hm]
      apply Int.le_floor.mpr
      linarith
    have hmr : m ≤ r := by
      rw [hm]
      have h2 : ((l : ℚ) + r) / 2 ≤ (r : ℚ) := by linarith
      calc ⌊((l : ℚ) + (r : ℚ)) / 2⌋ ≤ ⌊(r : ℚ)⌋ := Int.floor_le_floor h2
        _ = r := Int.floor_intCast r
    by_cases hP : t ≤ sg m
    · rw [if_pos hP]
      have hkm : k ≤ m := by
        by_contra hcon
        exact hleast m hlm (by omega) hP
      rw [show ((m : ℚ) - 1) = ((m - 1 : ℤ) : ℚ) by push_cast; ring]
      by_cases hkm1 : k ≤ m - 1
      · exact ih l (m - 1) (by omega) hLl k _ _ hlk hkm1 hk hleast
      · have hkm2 : k = m := by omega
        subst hkm2
        rw [searchLoop_of_none sg t (m - 1 + 1 - l).toNat l (m - 1) (le_refl _) _ _
          (fun x hx1 hx2 => hleast x hx1 (by omega))]
    · rw [if_neg hP]
      have hmk : m < k := by
        by_contra hcon
        exact hP (mono k m (by omega) (by omega) hk)
      rw [show ((m : ℚ) + 1) = ((m + 1 : ℤ) : ℚ) by push_cast; ring]
      exact ih (m + 1) r (by omega) (by omega) k acc accS (by omega) hkr hk
        (fun j h1 h2 => hleast j (by omega) h2)

/-- The current SEE probe equals the unmodified semester SGPA. -/
theorem sgpaAt_currentSee {config : GradingConfig} (subs : List Subject) (idx : ℕ)
    {c : ℤ} (hc : (subs.getD idx defaultSubject).see = (c : ℚ)) :
    sgpaAt subs idx config c = (calculateSGPA subs config).sgpa := by
  unfold sgpaAt
  rw [← hc, replaceSee_self]

/-- **C3**: for integer marks in range, a monotone (valid-scale) config with
integer `maxSEE`, a target subject present in the list, and a current SGPA
below the target, `findMinimalSEEForTarget` returns the smallest integer SEE
in `[currentSee, maxSEE]` whose substitution for the target subject's SEE
reaches the target (with `possible = true`), and returns `possible = false`
with `minSeeToReachTarget = -1` when even `maxSEE` does not reach it. -/
theorem findMinimalSEEForTarget_correct
    (config : GradingConfig) (hs : ValidScale config) (hmono : MonotoneBuckets config)
    {M : ℤ} (hM : config.maxSEE = (M : ℚ))
    (subs : List Subject)
    (hsubs : ∀ s ∈ subs, (∃ z : ℤ, s.cie = (z : ℚ)) ∧ (∃ z : ℤ, s.see = (z : ℚ)) ∧
      0 ≤ s.see ∧ s.see ≤ config.maxSEE ∧ 0 ≤ s.credits)
    (code0 : String) (idx : ℕ)
    (hfind : subs.findIdx? (fun s => s.code == code0) = some idx)
    (targetSgpa : ℚ)
    (hbelow : (calculateSGPA subs config).sgpa < targetSgpa) :
    ∃ plan : SubjectPlan,
      findMinimalSEEForTarget subs code0 targetSgpa config = some plan ∧
      (targetSgpa ≤ (calculateSGPA (replaceSee subs idx (M : ℚ)) config).sgpa →
        plan.possible = true ∧
        ∃ k : ℤ, plan.minSeeToReachTarget = (k : ℚ) ∧
          (subs.getD idx defaultSubject).see ≤ (k : ℚ) ∧ (k : ℚ) ≤ config.maxSEE ∧
          targetSgpa ≤ (calculateSGPA (replaceSee subs idx (k : ℚ)) config).sgpa ∧
          ∀ j : ℤ, (subs.getD idx defaultSubject).see ≤ (j : ℚ) → j < k →
            (calculateSGPA (replaceSee subs idx (j : ℚ)) config).sgpa < targetSgpa) ∧
      (¬ targetSgpa ≤ (calculateSGPA (replaceSee subs idx (M : ℚ)) config).sgpa →
        plan.possible = false ∧ plan.minSeeToReachTarget = -1) := by
  have hidx : idx < subs.length :=
    (List.findIdx?_eq_some_iff_findIdx_eq.mp hfind).1
  have hmem : subs.getD idx defaultSubject ∈ subs := by
    rw [List.getD_eq_getElem subs defaultSubject hidx]
    exact List.getElem_mem hidx
  obtain ⟨-, ⟨c, hc⟩, hsee0, hseeM, -⟩ := hsubs _ hmem
  have hcred : ∀ s ∈ subs, 0 ≤ s.credits := fun s hsmem => (hsubs s hsmem).2.2.2.2
  have hc0 : (0 : ℤ) ≤ c := by exact_mod_cast hc ▸ hsee0
  have hcM : c ≤ M := by
    have := hseeM
    rw [hc, hM] at this
    exact_mod_cast this
  have hlow : ¬ targetSgpa ≤ sgpaAt subs idx config c := by
    rw [sgpaAt_currentSee subs idx hc]
    exact not_le.mpr hbelow
  have hpmono := sgpaAt_pred_mono hs hmono subs idx hcred targetSgpa c hlow
  simp only [findMinimalSEEForTarget, hfind]
  rw [if_neg (not_le.mpr hbelow)]
  rw [hc, hM]
  by_cases hreach : targetSgpa ≤ (calculateSGPA (replaceSee subs idx (M : ℚ)) config).sgpa
  · have hreach2 : targetSgpa ≤ sgpaAt subs idx config M := hreach
    obtain ⟨k, ⟨hck, hkM, hPk⟩, hleast⟩ :=
      Int.exists_least_of_bdd (P := fun z : ℤ =>
          c ≤ z ∧ z ≤ M ∧ targetSgpa ≤ sgpaAt subs idx config z)
        ⟨c, fun z hz => hz.1⟩ ⟨M, hcM, le_refl M, hreach2⟩
    have hleast2 : ∀ j : ℤ, c ≤ j → j < k → ¬ targetSgpa ≤ sgpaAt subs idx config j := by
      intro j h1 h2 hPj
      have := hleast j ⟨h1, by omega, hPj⟩
      omega
    have hloop := searchLoop_found (sgpaAt subs idx config) targetSgpa c hpmono
      (M + 1 - c).toNat c M (le_refl _) (le_refl c) k (-1)
      (calculateSGPA subs config).sgpa hck hkM hPk hleast2
    rw [hloop]
    refine ⟨_, rfl, ?_, ?_⟩
    · intro _
      constructor
      · simp only []
        apply decide_eq_true
        have : (0 : ℚ) ≤ (k : ℚ) := by exact_mod_cast le_trans hc0 hck
        intro hcon
        rw [hcon] at this
        linarith
      · refine ⟨k, rfl, ?_, ?_, hPk, ?_⟩
        · exact_mod_cast hck
        · exact_mod_cast hkM
        · intro j h1 h2
          apply not_le.mp
          apply hleast2 j ?_ h2
          exact_mod_cast h1
    · intro hcon
      exact absurd hreach hcon
  · have hnone : ∀ x : ℤ, c ≤ x → x ≤ M → ¬ targetSgpa ≤ sgpaAt subs idx config x := by
      intro x h1 h2 hPx
      exact hreach (hpmono x M h1 h2 hPx)
    have hloop := searchLoop_of_none (sgpaAt subs idx config) targetSgpa
      (M + 1 - c).toNat c M (le_refl _) (-1) (calculateSGPA subs config).sgpa hnone
    rw [hloop]
    refine ⟨_, rfl, ?_, ?_⟩
    · intro hcon
      exact absurd hcon hreach
    · intro _
      constructor
      · simp only []
        apply decide_eq_false
        simp
      · rfl

/-! ### Greedy planner: iteration bound -/

theorem greedyLoopH_steps_le (targetSgpa : ℚ) (config : GradingConfig) :
    ∀ (fuel : ℕ) (h : List Subject) (waddrs : List ℕ)
      (steps : List GlobalPlanStep) (cur : SGPAResult),
    (greedyLoopH targetSgpa config fuel h waddrs steps cur).2.1.length ≤
      steps.length + fuel := by
  intro fuel
  induction fuel with
  | zero =>
    intro h waddrs steps cur
    simp [greedyLoopH]
  | succ fuel ih =>
    intro h waddrs steps cur
    simp only [greedyLoopH]
    split
    · split
      · simp
      · split
        · simp
        · split
          · simp
          · refine le_trans (ih _ _ _ _) ?_
            simp
            omega
    · simp

/-! ### Greedy planner: store frame -/

theorem heapGet_set_ne {h : List Subject} {w a : ℕ} (hne : w ≠ a) (v : Subject) :
    heapGet (h.set w v) a = heapGet h a := by
  unfold heapGet
  rw [List.getD_eq_getElem?_getD, List.getD_eq_getElem?_getD, List.getElem?_set_ne hne]

theorem foldl_scan_mem {f : Option ℕ × ℚ → ℕ → Option ℕ × ℚ}
    (hf : ∀ acc x, (f acc x).1 = acc.1 ∨ (f acc x).1 = some x) :
    ∀ (l : List ℕ) (acc : Option ℕ × ℚ) (i : ℕ),
    (l.foldl f acc).1 = some i → acc.1 = some i ∨ i ∈ l := by
  intro l
  induction l with
  | nil => intro acc i h; left; exact h
  | cons x xs ih =>
    intro acc i h
    rw [List.foldl_cons] at h
    rcases ih (f acc x) i h with h2 | h2
    · rcases hf acc x with h3 | h3
      · left; rw [← h3]; exact h2
      · right
        rw [h2] at h3
        rw [Option.some.injEq] at h3
        rw [h3]
        exact List.mem_cons_self x xs
    · right; exact List.mem_cons_of_mem _ h2

theorem bestSubjectScan_some_lt (ws : List Subject) (curSgpa : ℚ)
    (config : GradingConfig) (i : ℕ)
    (h : (bestSubjectScan ws curSgpa config).1 = some i) : i < ws.length := by
  unfold bestSubjectScan at h
  have := foldl_scan_mem ?_ (List.range ws.length) (none, 0) i h
  · rcases this with h2 | h2
    · cases h2
    · exact List.mem_range.mp h2
  · intro acc x
    dsimp only
    split
    · left; rfl
    · split
      · right; rfl
      · left; rfl

theorem greedyLoopH_frame (targetSgpa : ℚ) (config : GradingConfig) (L : ℕ) :
    ∀ (fuel : ℕ) (h : List Subject) (waddrs : List ℕ)
      (steps : List GlobalPlanStep) (cur : SGPAResult),
    (∀ w ∈ waddrs, L ≤ w) → ∀ a, a < L →
    heapGet (greedyLoopH targetSgpa config fuel h waddrs steps cur).1 a = heapGet h a := by
  intro fuel
  induction fuel with
  | zero =>
    intro h waddrs steps cur _ a _
    simp [greedyLoopH]
  | succ fuel ih =>
    intro h waddrs steps cur hw a ha
    have hset : ∀ (i : ℕ) (v : Subject),
        (bestSubjectScan (resolve h waddrs) cur.sgpa config).1 = some i →
        heapGet (h.set (waddrs.getD i 0) v) a = heapGet h a := by
      intro i v heq
      have hi : i < waddrs.length := by
        have := bestSubjectScan_some_lt _ _ _ _ heq
        simpa [resolve] using this
      have hmem : waddrs.getD i 0 ∈ waddrs := by
        rw [List.getD_eq_getElem waddrs 0 hi]
        exact List.getElem_mem hi
      exact heapGet_set_ne (by have := hw _ hmem; omega) v
    simp only [greedyLoopH]
    split
    · split
      · rfl
      · split
        · rfl
        · rename_i i heq
          split
          · exact hset i _ heq
          · rw [ih _ _ _ _ hw a ha]
            exact hset i _ heq
    · rfl

theorem greedyGlobalPlan_frame (h : List Subject) (addrs : List ℕ) (targetSgpa : ℚ)
    (config : GradingConfig) (hvalid : ∀ a ∈ addrs, a < h.length) :
    ∀ a ∈ addrs, heapGet (greedyGlobalPlan h addrs targetSgpa config).1 a = heapGet h a := by
  intro a ha
  simp only [greedyGlobalPlan, allocCopies]
  have hw : ∀ w ∈ List.range' h.length (resolve h addrs).length, h.length ≤ w := by
    intro w hwmem
    rcases List.mem_range'.mp hwmem with ⟨i, _, rfl⟩
    omega
  rw [greedyLoopH_frame targetSgpa config h.length 1000 _ _ [] _ hw a (hvalid a ha)]
  unfold heapGet
  rw [List.getD_eq_getElem?_getD, List.getD_eq_getElem?_getD,
    List.getElem?_append_left (hvalid a ha)]

end SGPAEngine

namespace BackendCalc

/-! ### Backend aggregation characterisations -/

theorem round2_zero : round2 0 = 0 := by
  unfold round2
  rw [zero_mul, show ((0:ℚ) = ((0:ℤ):ℚ)) by norm_num, jsRound_intCast]
  norm_num

theorem round2_intCast (z : ℤ) : round2 (z : ℚ) = (z : ℚ) := by
  unfold round2
  rw [show ((z:ℚ) * 100 = ((z * 100 : ℤ) : ℚ)) by push_cast; ring, jsRound_intCast]
  push_cast
  exact mul_div_cancel_right₀ _ (by norm_num)

theorem aggregateSGPA_totalCredits (subjects : List SubjectMarks) :
    (aggregateSGPA subjects).totalCredits = (subjects.map (·.credits)).sum := by
  simp only [aggregateSGPA]
  rw [foldl_add_eq, List.map_map]
  simp [Function.comp_def, computeSubjectMetrics]

theorem aggregateSGPA_totalWeighted (subjects : List SubjectMarks) :
    (aggregateSGPA subjects).totalWeighted =
      round2 ((subjects.map fun s => getGradePoint (s.cie + scaleSee s.see) * s.credits).sum) := by
  simp only [aggregateSGPA]
  rw [foldl_add_eq, List.map_map]
  simp [Function.comp_def, computeSubjectMetrics]

theorem aggregateSGPA_sgpa (subjects : List SubjectMarks) :
    (aggregateSGPA subjects).sgpa =
      round2 (if (subjects.map (·.credits)).sum = 0 then 0
        else (subjects.map fun s => getGradePoint (s.cie + scaleSee s.see) * s.credits).sum
          / (subjects.map (·.credits)).sum) := by
  simp only [aggregateSGPA]
  rw [foldl_add_eq, foldl_add_eq, List.map_map, List.map_map]
  simp [Function.comp_def, computeSubjectMetrics]

theorem aggregateSGPA_maxSgpa (subjects : List SubjectMarks) :
    (aggregateSGPA subjects).maxSgpaIfAll100 =
      round2 (if (subjects.map (·.credits)).sum = 0 then 0
        else (subjects.map fun s => getGradePoint (s.cie + scaleSee 100) * s.credits).sum
          / (subjects.map (·.credits)).sum) := by
  simp only [aggregateSGPA]
  rw [foldl_add_eq, foldl_add_eq, List.map_map]
  simp [Function.comp_def, computeSubjectMetrics]

theorem aggregateCGPA_totalCredits (semesters : List SemesterWithSubjects) :
    (aggregateCGPA semesters).totalCredits =
      (semesters.map fun sem => (aggregateSGPA sem.subjects).totalCredits).sum := by
  simp only [aggregateCGPA]
  rw [foldl_add_eq, List.map_map]
  simp [Function.comp_def]

theorem aggregateCGPA_cgpa (semesters : List SemesterWithSubjects) :
    (aggregateCGPA semesters).cgpa =
      round2 (if (semesters.map fun sem => (aggregateSGPA sem.subjects).totalCredits).sum = 0
        then 0
        else (semesters.map fun sem =>
            (aggregateSGPA sem.subjects).sgpa * (aggregateSGPA sem.subjects).totalCredits).sum
          / (semesters.map fun sem => (aggregateSGPA sem.subjects).totalCredits).sum) := by
  simp only [aggregateCGPA]
  rw [foldl_add_eq, foldl_add_eq, List.map_map, List.map_map]
  simp [Function.comp_def]

theorem getGradePoint_isInt (t : ℚ) : ∃ z : ℤ, getGradePoint t = (z : ℚ) := by
  unfold getGradePoint
  split_ifs
  · exact ⟨10, by norm_num⟩
  · exact ⟨9, by norm_num⟩
  · exact ⟨8, by norm_num⟩
  · exact ⟨7, by norm_num⟩
  · exact ⟨6, by norm_num⟩
  · exact ⟨5, by norm_num⟩
  · exact ⟨4, by norm_num⟩

end BackendCalc

theorem sum_isInt {α : Type} (f : α → ℚ) : ∀ (l : List α),
    (∀ x ∈ l, ∃ z : ℤ, f x = (z : ℚ)) → ∃ z : ℤ, (l.map f).sum = (z : ℚ) := by
  intro l
  induction l with
  | nil => intro _; exact ⟨0, by simp⟩
  | cons x xs ih =>
    intro h
    rcases h x (List.mem_cons_self x xs) with ⟨zx, hzx⟩
    rcases ih (fun y hy => h y (List.mem_cons_of_mem _ hy)) with ⟨zs, hzs⟩
    refine ⟨zx + zs, ?_⟩
    rw [List.map_cons, List.sum_cons, hzx, hzs]
    push_cast
    ring

/-! ### Frontend/backend cross-implementation bridges -/

theorem scaleSEE_default (see : ℚ) :
    SGPAEngine.scaleSEE see SGPAEngine.DEFAULT_GRADING_CONFIG = BackendCalc.scaleSee see := by
  unfold SGPAEngine.scaleSEE BackendCalc.scaleSee SGPAEngine.DEFAULT_GRADING_CONFIG
  norm_num

theorem roundTo_two_eq_round2 (x : ℚ) :
    SGPAEngine.roundTo x 2 = BackendCalc.round2 x := by
  unfold SGPAEngine.roundTo BackendCalc.round2
  norm_num

/-- On nonnegative totals the frontend bucket scan under the default table and
the backend if-chain agree.  (They differ on negative totals: the scan's
fallback returns 0, the chain returns 4.) -/
theorem gpForTotal_default_eq (t : ℚ) (ht : 0 ≤ t) :
    SGPAEngine.gpForTotal t SGPAEngine.DEFAULT_GRADING_CONFIG =
      BackendCalc.getGradePoint t := by
  have hsort : SGPAEngine.sortDesc SGPAEngine.DEFAULT_GRADING_CONFIG.buckets =
      SGPAEngine.DEFAULT_GRADING_CONFIG.buckets := by decide
  unfold SGPAEngine.gpForTotal
  rw [hsort]
  simp only [SGPAEngine.DEFAULT_GRADING_CONFIG, SGPAEngine.firstGp,
    BackendCalc.getGradePoint]
  split_ifs <;> rfl

/-! ## Claim theorems -/

/-- **C1**: `gpForTotal` returns the grade point of the first bucket, in
descending order of `min`, whose `min` is ≤ the total (equivalently: of a
matching bucket whose `min` is maximal among all matches); under the default
table an exact boundary total of 90 earns that bucket's 10, while 89.999
earns the next-lower bucket's 9. -/
theorem claim_C1_gpForTotal_first_bucket :
    (∀ (t : ℚ) (config : SGPAEngine.GradingConfig),
      (∃ b ∈ config.buckets, b.min ≤ t) →
      ∃ b ∈ config.buckets, b.min ≤ t ∧ SGPAEngine.gpForTotal t config = b.gp ∧
        ∀ c ∈ config.buckets, c.min ≤ t → c.min ≤ b.min) ∧
    SGPAEngine.gpForTotal 90 SGPAEngine.DEFAULT_GRADING_CONFIG = 10 ∧
    SGPAEngine.gpForTotal (89999/1000) SGPAEngine.DEFAULT_GRADING_CONFIG = 9 := by
  refine ⟨?_, by decide, by decide⟩
  intro t config hm
  exact SGPAEngine.gpForTotal_spec hm

/-- Witness for **C1** at `t = 90` under the default config. -/
theorem claim_C1_witness :
    ∃ b ∈ SGPAEngine.DEFAULT_GRADING_CONFIG.buckets, b.min ≤ 90 ∧
      SGPAEngine.gpForTotal 90 SGPAEngine.DEFAULT_GRADING_CONFIG = b.gp ∧
      ∀ c ∈ SGPAEngine.DEFAULT_GRADING_CONFIG.buckets, c.min ≤ 90 → c.min ≤ b.min :=
  claim_C1_gpForTotal_first_bucket.1 90 SGPAEngine.DEFAULT_GRADING_CONFIG
    ⟨{ min := 90, gp := 10, label := "O" }, by decide, by norm_num⟩

/-- **C2**: `calculateSGPA` returns the credit sum, the weighted sum
`Σ gp·credits`, and the rounded ratio as SGPA (0 when the credit total is 0,
including the empty list); on the spec's two-subject example it yields
`totalCredits = 7`, `totalWeighted = 59`, `sgpa = 8.43`. -/
theorem claim_C2_calculateSGPA_aggregation :
    (∀ (subjects : List SGPAEngine.Subject) (config : SGPAEngine.GradingConfig),
      (SGPAEngine.calculateSGPA subjects config).totalCredits
          = (subjects.map (·.credits)).sum ∧
      (SGPAEngine.calculateSGPA subjects config).totalWeighted
          = (subjects.map fun s =>
              SGPAEngine.gpForTotal (SGPAEngine.calculateTotal s.cie s.see config) config
                * s.credits).sum ∧
      (0 < (SGPAEngine.calculateSGPA subjects config).totalCredits →
        (SGPAEngine.calculateSGPA subjects config).sgpa =
          SGPAEngine.roundTo
            ((SGPAEngine.calculateSGPA subjects config).totalWeighted
              / (SGPAEngine.calculateSGPA subjects config).totalCredits)
            config.roundingDigits) ∧
      ((SGPAEngine.calculateSGPA subjects config).totalCredits = 0 →
        (SGPAEngine.calculateSGPA subjects config).sgpa = 0)) ∧
    (SGPAEngine.calculateSGPA [] SGPAEngine.DEFAULT_GRADING_CONFIG).sgpa = 0 ∧
    (SGPAEngine.calculateSGPA
        [ { code := "A", name := "A", cie := 40, see := 60, credits := 4 }
        , { code := "B", name := "B", cie := 45, see := 80, credits := 3 } ]
        SGPAEngine.DEFAULT_GRADING_CONFIG).totalCredits = 7 ∧
    (SGPAEngine.calculateSGPA
        [ { code := "A", name := "A", cie := 40, see := 60, credits := 4 }
        , { code := "B", name := "B", cie := 45, see := 80, credits := 3 } ]
        SGPAEngine.DEFAULT_GRADING_CONFIG).totalWeighted = 59 ∧
    (SGPAEngine.calculateSGPA
        [ { code := "A", name := "A", cie := 40, see := 60, credits := 4 }
        , { code := "B", name := "B", cie := 45, see := 80, credits := 3 } ]
        SGPAEngine.DEFAULT_GRADING_CONFIG).sgpa = 843/100 := by
  refine ⟨?_, by decide, by decide, by decide, by decide⟩
  intro subjects config
  refine ⟨SGPAEngine.calculateSGPA_totalCredits subjects config, ?_, ?_, ?_⟩
  · rw [SGPAEngine.calculateSGPA_totalWeighted]
    rfl
  · intro hpos
    rw [SGPAEngine.calculateSGPA_totalCredits] at hpos
    rw [SGPAEngine.calculateSGPA_sgpa, SGPAEngine.calculateSGPA_totalCredits,
      SGPAEngine.calculateSGPA_totalWeighted, if_pos hpos]
  · intro hzero
    rw [SGPAEngine.calculateSGPA_totalCredits] at hzero
    rw [SGPAEngine.calculateSGPA_sgpa, hzero]
    norm_num [SGPAEngine.roundTo_zero]

/-- Witness for **C2**'s conditional conjuncts on the two-subject example. -/
theorem claim_C2_witness :
    (0 : ℚ) < (SGPAEngine.calculateSGPA
        [ { code := "A", name := "A", cie := 40, see := 60, credits := 4 }
        , { code := "B", name := "B", cie := 45, see := 80, credits := 3 } ]
        SGPAEngine.DEFAULT_GRADING_CONFIG).totalCredits ∧
    (SGPAEngine.calculateSGPA
        [ { code := "A", name := "A", cie := 40, see := 60, credits := 4 }
        , { code := "B", name := "B", cie := 45, see := 80, credits := 3 } ]
        SGPAEngine.DEFAULT_GRADING_CONFIG).sgpa =
      SGPAEngine.roundTo
        ((SGPAEngine.calculateSGPA
            [ { code := "A", name := "A", cie := 40, see := 60, credits := 4 }
            , { code := "B", name := "B", cie := 45, see := 80, credits := 3 } ]
            SGPAEngine.DEFAULT_GRADING_CONFIG).totalWeighted
          / (SGPAEngine.calculateSGPA
            [ { code := "A", name := "A", cie := 40, see := 60, credits := 4 }
            , { code := "B", name := "B", cie := 45, see := 80, credits := 3 } ]
            SGPAEngine.DEFAULT_GRADING_CONFIG).totalCredits)
        SGPAEngine.DEFAULT_GRADING_CONFIG.roundingDigits :=
  ⟨by decide,
    ((claim_C2_calculateSGPA_aggregation.1
      [ { code := "A", name := "A", cie := 40, see := 60, credits := 4 }
      , { code := "B", name := "B", cie := 45, see := 80, credits := 3 } ]
      SGPAEngine.DEFAULT_GRADING_CONFIG).2.2.1 (by decide))⟩

/-- **C6 counterexample**: with a config whose only bucket has `min = 50`
(no floor bucket), a total of 10 matches no bucket, yet `gpForTotal` does not
fail — it returns the fallback grade point 0. -/
theorem claim_C6_counterexample :
    SGPAEngine.gpForTotal 10 SGPAEngine.floorlessConfig = 0 ∧
    SGPAEngine.floorlessConfig.buckets.all (fun b => decide (10 < b.min)) = true := by
  decide

/-- **C6 (amended)**: when no bucket's `min` is ≤ the total, `gpForTotal`
returns the fallback value 0 instead of raising a `ConfigurationError`. -/
theorem claim_C6_amended (t : ℚ) (config : SGPAEngine.GradingConfig)
    (h : ∀ b ∈ config.buckets, t < b.min) :
    SGPAEngine.gpForTotal t config = 0 :=
  SGPAEngine.gpForTotal_eq_zero fun b hb => not_le.mpr (h b hb)

/-- Witness for **C6 (amended)** on the floorless config. -/
theorem claim_C6_witness : SGPAEngine.gpForTotal 10 SGPAEngine.floorlessConfig = 0 :=
  claim_C6_amended 10 SGPAEngine.floorlessConfig (by decide)

/-- **C7 counterexample**: on a subject with negative internal marks —
which `validateSubject` itself flags as invalid — `calculateSGPA` does not
reject the input: it still produces a numeric result. -/
theorem claim_C7_counterexample :
    (SGPAEngine.validateSubject
      { code := "CS", name := "X", cie := -5, see := 0, credits := 1 }
      SGPAEngine.DEFAULT_GRADING_CONFIG).valid = false ∧
    (SGPAEngine.calculateSGPA
      [ { code := "CS", name := "X", cie := -5, see := 0, credits := 1 } ]
      SGPAEngine.DEFAULT_GRADING_CONFIG).sgpa = 0 := by
  decide

/-- **C7 (amended)**: `validateSubject` flags every domain violation
(returning `valid = false` with a nonempty error list), but the computation
functions never invoke it — `calculateSGPA` computes a numeric result even
on invalid subjects (see the counterexample). -/
theorem claim_C7_amended (subject : SGPAEngine.Subject)
    (config : SGPAEngine.GradingConfig)
    (h : subject.cie < 0 ∨ config.maxCIE < subject.cie ∨ subject.see < 0 ∨
      config.maxSEE < subject.see ∨ subject.credits ≤ 0 ∨
      subject.code = "" ∨ subject.name = "") :
    (SGPAEngine.validateSubject subject config).valid = false ∧
    (SGPAEngine.validateSubject subject config).errors ≠ [] := by
  constructor <;>
    · unfold SGPAEngine.validateSubject
      split_ifs <;> simp_all

/-- Witness for **C7 (amended)** on the negative-CIE subject. -/
theorem claim_C7_witness :
    (SGPAEngine.validateSubject
      { code := "CS", name := "X", cie := -5, see := 0, credits := 1 }
      SGPAEngine.DEFAULT_GRADING_CONFIG).valid = false ∧
    (SGPAEngine.validateSubject
      { code := "CS", name := "X", cie := -5, see := 0, credits := 1 }
      SGPAEngine.DEFAULT_GRADING_CONFIG).errors ≠ [] :=
  claim_C7_amended
    { code := "CS", name := "X", cie := -5, see := 0, credits := 1 }
    SGPAEngine.DEFAULT_GRADING_CONFIG (Or.inl (by norm_num))

/-- **C9**: `aggregateCGPA` returns the sum of the per-semester credit
totals, and the credit-weighted average `Σ sgpa·credits / Σ credits` of the
(rounded) per-semester SGPAs, rounded to 2 digits — and 0 when the total
credits across all semesters is 0. -/
theorem claim_C9_aggregateCGPA (semesters : List BackendCalc.SemesterWithSubjects) :
    (BackendCalc.aggregateCGPA semesters).totalCredits =
      (semesters.map fun sem => (BackendCalc.aggregateSGPA sem.subjects).totalCredits).sum ∧
    (BackendCalc.aggregateCGPA semesters).cgpa =
      (if (semesters.map fun sem =>
            (BackendCalc.aggregateSGPA sem.subjects).totalCredits).sum = 0
        then 0
        else BackendCalc.round2
          ((semesters.map fun sem =>
              (BackendCalc.aggregateSGPA sem.subjects).sgpa *
                (BackendCalc.aggregateSGPA sem.subjects).totalCredits).sum
            / (semesters.map fun sem =>
                (BackendCalc.aggregateSGPA sem.subjects).totalCredits).sum)) := by
  refine ⟨BackendCalc.aggregateCGPA_totalCredits semesters, ?_⟩
  rw [BackendCalc.aggregateCGPA_cgpa]
  by_cases hC : (semesters.map fun sem =>
      (BackendCalc.aggregateSGPA sem.subjects).totalCredits).sum = 0
  · rw [if_pos hC, if_pos hC, BackendCalc.round2_zero]
  · rw [if_neg hC, if_neg hC]

/-- **C4**: `greedyGlobalPlan` always terminates with a `GlobalPlan`: its
loop is capped at 1000 iterations, so at most 1000 steps are accumulated,
and the plan reports `targetReached = false` exactly when the final SGPA is
still below the target (in particular when the cap was hit) — hitting the
cap is not an error. -/
theorem claim_C4_greedy_termination (h : List SGPAEngine.Subject) (addrs : List ℕ)
    (targetSgpa : ℚ) (config : SGPAEngine.GradingConfig) :
    (SGPAEngine.greedyGlobalPlan h addrs targetSgpa config).2.steps.length ≤ 1000 ∧
    ((SGPAEngine.greedyGlobalPlan h addrs targetSgpa config).2.targetReached = false ↔
      (SGPAEngine.greedyGlobalPlan h addrs targetSgpa config).2.finalSgpa < targetSgpa) := by
  constructor
  · simp only [SGPAEngine.greedyGlobalPlan, SGPAEngine.allocCopies]
    have := SGPAEngine.greedyLoopH_steps_le targetSgpa config 1000
      (h ++ SGPAEngine.resolve h addrs)
      (List.range' h.length (SGPAEngine.resolve h addrs).length) []
      (SGPAEngine.calculateSGPA
        (SGPAEngine.resolve (h ++ SGPAEngine.resolve h addrs)
          (List.range' h.length (SGPAEngine.resolve h addrs).length)) config)
    simpa using this
  · simp only [SGPAEngine.greedyGlobalPlan, SGPAEngine.allocCopies,
      decide_eq_false_iff_not, not_le]

/-- **C8**: no engine function mutates the caller's subject records: in the
store model, `calculateSGPA` and `findMinimalSEEForTarget` only read the
store, and `greedyGlobalPlan` — whose loop assigns `see` in place — writes
only to the fresh working copies, so every record at a caller-held address is
unchanged after the call. -/
theorem claim_C8_no_mutation (h : List SGPAEngine.Subject) (addrs : List ℕ)
    (targetSubjectCode : String) (targetSgpa : ℚ) (config : SGPAEngine.GradingConfig)
    (hvalid : ∀ a ∈ addrs, a < h.length) :
    (SGPAEngine.calculateSGPAH h addrs config).1 = h ∧
    (SGPAEngine.findMinimalSEEForTargetH h addrs targetSubjectCode targetSgpa config).1 = h ∧
    ∀ a ∈ addrs,
      SGPAEngine.heapGet (SGPAEngine.greedyGlobalPlan h addrs targetSgpa config).1 a =
        SGPAEngine.heapGet h a :=
  ⟨rfl, rfl, SGPAEngine.greedyGlobalPlan_frame h addrs targetSgpa config hvalid⟩

/-- Witness for **C8** on a one-subject store. -/
theorem claim_C8_witness :
    (SGPAEngine.calculateSGPAH
      [{ code := "S1", name := "S", cie := 10, see := 0, credits := 3 }] [0]
      SGPAEngine.DEFAULT_GRADING_CONFIG).1 =
        [{ code := "S1", name := "S", cie := 10, see := 0, credits := 3 }] ∧
    (SGPAEngine.findMinimalSEEForTargetH
      [{ code := "S1", name := "S", cie := 10, see := 0, credits := 3 }] [0]
      "S1" 10 SGPAEngine.DEFAULT_GRADING_CONFIG).1 =
        [{ code := "S1", name := "S", cie := 10, see := 0, credits := 3 }] ∧
    SGPAEngine.heapGet
        (SGPAEngine.greedyGlobalPlan
          [{ code := "S1", name := "S", cie := 10, see := 0, credits := 3 }] [0]
          10 SGPAEngine.DEFAULT_GRADING_CONFIG).1 0 =
      SGPAEngine.heapGet
        [{ code := "S1", name := "S", cie := 10, see := 0, credits := 3 }] 0 := by
  have hmain := claim_C8_no_mutation
    [{ code := "S1", name := "S", cie := 10, see := 0, credits := 3 }] [0]
    "S1" 10 SGPAEngine.DEFAULT_GRADING_CONFIG (by decide)
  exact ⟨hmain.1, hmain.2.1, hmain.2.2 0 (by decide)⟩

/-- **C5 counterexample**: under a fixed config whose grade points are not
monotone in the bucket minimum, raising a subject's SEE from 0 to 20
strictly lowers its grade point, its weighted points, and the semester SGPA
— so the claim is false for arbitrary configs. -/
theorem claim_C5_counterexample :
    SGPAEngine.gpForTotal
        (SGPAEngine.calculateTotal 40 20 SGPAEngine.nonMonotoneConfig)
        SGPAEngine.nonMonotoneConfig <
      SGPAEngine.gpForTotal
        (SGPAEngine.calculateTotal 40 0 SGPAEngine.nonMonotoneConfig)
        SGPAEngine.nonMonotoneConfig ∧
    SGPAEngine.weightedOf SGPAEngine.nonMonotoneConfig
        { code := "S", name := "S", cie := 40, see := 20, credits := 1 } <
      SGPAEngine.weightedOf SGPAEngine.nonMonotoneConfig
        { code := "S", name := "S", cie := 40, see := 0, credits := 1 } ∧
    (SGPAEngine.calculateSGPA
        [ { code := "S", name := "S", cie := 40, see := 20, credits := 1 } ]
        SGPAEngine.nonMonotoneConfig).sgpa <
      (SGPAEngine.calculateSGPA
        [ { code := "S", name := "S", cie := 40, see := 0, credits := 1 } ]
        SGPAEngine.nonMonotoneConfig).sgpa := by
  decide

/-- **C5 (amended)**: for a config with a positive marks scale and
nonnegative grade points that are monotone non-decreasing in the bucket
minimum (the default config qualifies), and subjects with nonnegative
credits, increasing any one subject's SEE never decreases that subject's
grade point, its weighted points, or the semester SGPA. -/
theorem claim_C5_see_monotone {config : SGPAEngine.GradingConfig}
    (hs : SGPAEngine.ValidScale config)
    (hgp : ∀ b ∈ config.buckets, 0 ≤ b.gp)
    (hmono : SGPAEngine.MonotoneBuckets config)
    (subs : List SGPAEngine.Subject) (i : ℕ)
    (hcred : ∀ s ∈ subs, 0 ≤ s.credits)
    {w : ℚ} (hw : (subs.getD i SGPAEngine.defaultSubject).see ≤ w) :
    SGPAEngine.gpForTotal
        (SGPAEngine.calculateTotal (subs.getD i SGPAEngine.defaultSubject).cie
          (subs.getD i SGPAEngine.defaultSubject).see config) config ≤
      SGPAEngine.gpForTotal
        (SGPAEngine.calculateTotal (subs.getD i SGPAEngine.defaultSubject).cie w config)
        config ∧
    SGPAEngine.weightedOf config (subs.getD i SGPAEngine.defaultSubject) ≤
      SGPAEngine.weightedOf config
        { subs.getD i SGPAEngine.defaultSubject with see := w } ∧
    (SGPAEngine.calculateSGPA subs config).sgpa ≤
      (SGPAEngine.calculateSGPA (SGPAEngine.replaceSee subs i w) config).sgpa :=
  SGPAEngine.see_increase_monotone hs hgp hmono subs i hcred hw

/-- Witness for **C5 (amended)**: raising subject A's SEE from 60 to 80
under the default config. -/
theorem claim_C5_witness :
    SGPAEngine.gpForTotal
        (SGPAEngine.calculateTotal 40 60 SGPAEngine.DEFAULT_GRADING_CONFIG)
        SGPAEngine.DEFAULT_GRADING_CONFIG ≤
      SGPAEngine.gpForTotal
        (SGPAEngine.calculateTotal 40 80 SGPAEngine.DEFAULT_GRADING_CONFIG)
        SGPAEngine.DEFAULT_GRADING_CONFIG ∧
    SGPAEngine.weightedOf SGPAEngine.DEFAULT_GRADING_CONFIG
        { code := "A", name := "A", cie := 40, see := 60, credits := 4 } ≤
      SGPAEngine.weightedOf SGPAEngine.DEFAULT_GRADING_CONFIG
        { code := "A", name := "A", cie := 40, see := 80, credits := 4 } ∧
    (SGPAEngine.calculateSGPA
        [ { code := "A", name := "A", cie := 40, see := 60, credits := 4 } ]
        SGPAEngine.DEFAULT_GRADING_CONFIG).sgpa ≤
      (SGPAEngine.calculateSGPA
        (SGPAEngine.replaceSee
          [ { code := "A", name := "A", cie := 40, see := 60, credits := 4 } ] 0 80)
        SGPAEngine.DEFAULT_GRADING_CONFIG).sgpa :=
  claim_C5_see_monotone ⟨by decide, by decide⟩ (by decide)
    (by unfold SGPAEngine.MonotoneBuckets; decide)
    [ { code := "A", name := "A", cie := 40, see := 60, credits := 4 } ] 0
    (by decide) (by decide)

/-- Witness for **C3** on the spec's unreachable-target scenario: a single
subject `{cie = 10, see = 0, credits = 3}` and target SGPA 10 — even
`see = 100` yields SGPA 7, so the plan reports `possible = false` and the
sentinel `-1`. -/
theorem claim_C3_witness :
    ∃ plan : SGPAEngine.SubjectPlan,
      SGPAEngine.findMinimalSEEForTarget
        [{ code := "S1", name := "S", cie := 10, see := 0, credits := 3 }] "S1" 10
        SGPAEngine.DEFAULT_GRADING_CONFIG = some plan ∧
      plan.possible = false ∧ plan.minSeeToReachTarget = -1 := by
  obtain ⟨plan, heq, -, h2⟩ := SGPAEngine.findMinimalSEEForTarget_correct
    SGPAEngine.DEFAULT_GRADING_CONFIG
    ⟨by decide, by decide⟩
    (by unfold SGPAEngine.MonotoneBuckets; decide)
    (M := 100) (by decide)
    [{ code := "S1", name := "S", cie := 10, see := 0, credits := 3 }]
    (by
      intro s hsmem
      rw [List.mem_singleton] at hsmem
      subst hsmem
      exact ⟨⟨10, by decide⟩, ⟨0, by decide⟩, by decide, by decide, by decide⟩)
    "S1" 0 (by decide) 10 (by decide)
  exact ⟨plan, heq, (h2 (by decide)).1, (h2 (by decide)).2⟩

/-- On valid marks, the frontend per-subject weighted points under the
default config equal the backend's. -/
theorem weightedOf_default_eq (s : SGPAEngine.Subject)
    (h1 : 0 ≤ s.cie) (h3 : 0 ≤ s.see) :
    SGPAEngine.weightedOf SGPAEngine.DEFAULT_GRADING_CONFIG s =
      BackendCalc.getGradePoint (s.cie + BackendCalc.scaleSee s.see) * s.credits := by
  unfold SGPAEngine.weightedOf
  rw [show SGPAEngine.calculateTotal s.cie s.see SGPAEngine.DEFAULT_GRADING_CONFIG
      = s.cie + BackendCalc.scaleSee s.see from by
    unfold SGPAEngine.calculateTotal
    rw [scaleSEE_default]]
  rw [gpForTotal_default_eq]
  have h4 : 0 ≤ BackendCalc.scaleSee s.see := by
    unfold BackendCalc.scaleSee
    linarith
  linarith

/-- The all-marks-at-maximum variant of `weightedOf_default_eq`. -/
theorem weightedOf_default_max_eq (s : SGPAEngine.Subject) (h1 : 0 ≤ s.cie) :
    SGPAEngine.weightedOf SGPAEngine.DEFAULT_GRADING_CONFIG
        { s with see := SGPAEngine.DEFAULT_GRADING_CONFIG.maxSEE } =
      BackendCalc.getGradePoint (s.cie + BackendCalc.scaleSee 100) * s.credits := by
  unfold SGPAEngine.weightedOf
  rw [show SGPAEngine.calculateTotal
        ({ s with see := SGPAEngine.DEFAULT_GRADING_CONFIG.maxSEE } : SGPAEngine.Subject).cie
        ({ s with see := SGPAEngine.DEFAULT_GRADING_CONFIG.maxSEE } : SGPAEngine.Subject).see
        SGPAEngine.DEFAULT_GRADING_CONFIG
      = s.cie + BackendCalc.scaleSee 100 from by
    unfold SGPAEngine.calculateTotal
    rw [show ({ s with see := SGPAEngine.DEFAULT_GRADING_CONFIG.maxSEE } :
        SGPAEngine.Subject).see = (100 : ℚ) from rfl]
    rw [scaleSEE_default]]
  rw [gpForTotal_default_eq]
  have h4 : BackendCalc.scaleSee 100 = 50 := by
    unfold BackendCalc.scaleSee
    norm_num
  linarith

/-- **C10**: on valid input — `0 ≤ cie ≤ 50`, `0 ≤ see ≤ 100`, positive
integer credits — the frontend `calculateSGPA` under the default config and
the backend `aggregateSGPA` agree on `sgpa`, `totalCredits`, `totalWeighted`
and `maxSgpaIfAll100`. -/
theorem claim_C10_implementations_agree (subs : List SGPAEngine.Subject)
    (hval : ∀ s ∈ subs, 0 ≤ s.cie ∧ s.cie ≤ 50 ∧ 0 ≤ s.see ∧ s.see ≤ 100 ∧
      ∃ n : ℕ, s.credits = (n : ℚ) + 1) :
    (SGPAEngine.calculateSGPA subs SGPAEngine.DEFAULT_GRADING_CONFIG).sgpa =
      (BackendCalc.aggregateSGPA (subs.map fun s =>
        { cie := s.cie, see := s.see, credits := s.credits })).sgpa ∧
    (SGPAEngine.calculateSGPA subs SGPAEngine.DEFAULT_GRADING_CONFIG).totalCredits =
      (BackendCalc.aggregateSGPA (subs.map fun s =>
        { cie := s.cie, see := s.see, credits := s.credits })).totalCredits ∧
    (SGPAEngine.calculateSGPA subs SGPAEngine.DEFAULT_GRADING_CONFIG).totalWeighted =
      (BackendCalc.aggregateSGPA (subs.map fun s =>
        { cie := s.cie, see := s.see, credits := s.credits })).totalWeighted ∧
    (SGPAEngine.calculateSGPA subs SGPAEngine.DEFAULT_GRADING_CONFIG).maxSgpaIfAll100 =
      (BackendCalc.aggregateSGPA (subs.map fun s =>
        { cie := s.cie, see := s.see, credits := s.credits })).maxSgpaIfAll100 := by
  have hBc : ((subs.map fun s =>
      ({ cie := s.cie, see := s.see, credits := s.credits } : BackendCalc.SubjectMarks)).map
        (·.credits)).sum = (subs.map (·.credits)).sum := by
    rw [List.map_map]
    rfl
  have hCnn : 0 ≤ (subs.map (·.credits)).sum := by
    apply List.sum_nonneg
    intro x hx
    rw [List.mem_map] at hx
    obtain ⟨s, hsmem, rfl⟩ := hx
    obtain ⟨-, -, -, -, n, hn⟩ := hval s hsmem
    rw [hn]
    positivity
  have hW : ((subs.map fun s =>
      ({ cie := s.cie, see := s.see, credits := s.credits } : BackendCalc.SubjectMarks)).map
        fun m => BackendCalc.getGradePoint (m.cie + BackendCalc.scaleSee m.see)
          * m.credits).sum =
      (subs.map (SGPAEngine.weightedOf SGPAEngine.DEFAULT_GRADING_CONFIG)).sum := by
    rw [List.map_map]
    apply congrArg List.sum
    apply List.map_congr_left
    intro s hsmem
    obtain ⟨h1, -, h3, -, -⟩ := hval s hsmem
    exact (weightedOf_default_eq s h1 h3).symm
  have hMaxW : ((subs.map fun s =>
      ({ cie := s.cie, see := s.see, credits := s.credits } : BackendCalc.SubjectMarks)).map
        fun m => BackendCalc.getGradePoint (m.cie + BackendCalc.scaleSee 100)
          * m.credits).sum =
      (subs.map fun s => SGPAEngine.weightedOf SGPAEngine.DEFAULT_GRADING_CONFIG
        { s with see := SGPAEngine.DEFAULT_GRADING_CONFIG.maxSEE }).sum := by
    rw [List.map_map]
    apply congrArg List.sum
    apply List.map_congr_left
    intro s hsmem
    obtain ⟨h1, -, -, -, -⟩ := hval s hsmem
    exact (weightedOf_default_max_eq s h1).symm
  have hWint : ∃ z : ℤ,
      (subs.map (SGPAEngine.weightedOf SGPAEngine.DEFAULT_GRADING_CONFIG)).sum = (z : ℚ) := by
    apply sum_isInt
    intro s hsmem
    obtain ⟨h1, -, h3, -, n, hn⟩ := hval s hsmem
    rw [weightedOf_default_eq s h1 h3]
    obtain ⟨zg, hzg⟩ := BackendCalc.getGradePoint_isInt (s.cie + BackendCalc.scaleSee s.see)
    refine ⟨zg * (n + 1), ?_⟩
    rw [hzg, hn]
    push_cast
    ring
  refine ⟨?_, ?_, ?_, ?_⟩
  · rw [SGPAEngine.calculateSGPA_sgpa, BackendCalc.aggregateSGPA_sgpa, hBc, hW]
    by_cases hC : (subs.map (·.credits)).sum = 0
    · rw [hC]
      norm_num [SGPAEngine.roundTo_zero, BackendCalc.round2_zero]
    · have hpos : 0 < (subs.map (·.credits)).sum := lt_of_le_of_ne hCnn (Ne.symm hC)
      rw [if_pos hpos, if_neg hC]
      exact roundTo_two_eq_round2 _
  · rw [SGPAEngine.calculateSGPA_totalCredits, BackendCalc.aggregateSGPA_totalCredits, hBc]
  · rw [SGPAEngine.calculateSGPA_totalWeighted, BackendCalc.aggregateSGPA_totalWeighted, hW]
    obtain ⟨z, hz⟩ := hWint
    rw [hz, BackendCalc.round2_intCast]
  · rw [SGPAEngine.calculateSGPA_maxSgpa, BackendCalc.aggregateSGPA_maxSgpa, hBc, hMaxW]
    by_cases hC : (subs.map (·.credits)).sum = 0
    · rw [hC]
      norm_num [SGPAEngine.roundTo_zero, BackendCalc.round2_zero]
    · have hpos : 0 < (subs.map (·.credits)).sum := lt_of_le_of_ne hCnn (Ne.symm hC)
      rw [if_pos hpos, if_neg hC]
      exact roundTo_two_eq_round2 _

/-- Witness for **C10** on the spec's two valid subjects. -/
theorem claim_C10_witness :
    (SGPAEngine.calculateSGPA
        [ { code := "A", name := "A", cie := 40, see := 60, credits := 4 }
        , { code := "B", name := "B", cie := 45, see := 80, credits := 3 } ]
        SGPAEngine.DEFAULT_GRADING_CONFIG).sgpa =
      (BackendCalc.aggregateSGPA
        [ { cie := 40, see := 60, credits := 4 }
        , { cie := 45, see := 80, credits := 3 } ]).sgpa ∧
    (SGPAEngine.calculateSGPA
        [ { code := "A", name := "A", cie := 40, see := 60, credits := 4 }
        , { code := "B", name := "B", cie := 45, see := 80, credits := 3 } ]
        SGPAEngine.DEFAULT_GRADING_CONFIG).totalWeighted =
      (BackendCalc.aggregateSGPA
        [ { cie := 40, see := 60, credits := 4 }
        , { cie := 45, see := 80, credits := 3 } ]).totalWeighted := by
  have hmain := claim_C10_implementations_agree
    [ { code := "A", name := "A", cie := 40, see := 60, credits := 4 }
    , { code := "B", name := "B", cie := 45, see := 80, credits := 3 } ]
    (by
      intro s hsmem
      rw [List.mem_cons, List.mem_singleton] at hsmem
      rcases hsmem with rfl | rfl
      · exact ⟨by decide, by decide, by decide, by decide, 3, by norm_num⟩
      · exact ⟨by decide, by decide, by decide, by decide, 2, by norm_num⟩)
  exact ⟨hmain.1, hmain.2.2.1⟩

/-- Witness for **C4** on an infeasible one-subject target (the greedy loop
stops with no improving move; the cap is not exceeded and
`targetReached = false`). -/
theorem claim_C4_witness :
    (SGPAEngine.greedyGlobalPlan
        [{ code := "S1", name := "S", cie := 10, see := 0, credits := 3 }] [0] 10
        SGPAEngine.DEFAULT_GRADING_CONFIG).2.steps.length ≤ 1000 ∧
    (SGPAEngine.greedyGlobalPlan
        [{ code := "S1", name := "S", cie := 10, see := 0, credits := 3 }] [0] 10
        SGPAEngine.DEFAULT_GRADING_CONFIG).2.finalSgpa < 10 :=
  ⟨(claim_C4_greedy_termination
      [{ code := "S1", name := "S", cie := 10, see := 0, credits := 3 }] [0] 10
      SGPAEngine.DEFAULT_GRADING_CONFIG).1,
   (claim_C4_greedy_termination
      [{ code := "S1", name := "S", cie := 10, see := 0, credits := 3 }] [0] 10
      SGPAEngine.DEFAULT_GRADING_CONFIG).2.mp (by decide)⟩
